import Mathlib

/-!
Verification of the evidence-ledger core of `app.py`.

The embedding models, faithfully to the source:
- `sha256_hex` / `sha512_hex` (FIPS 180-4 SHA-256 / SHA-512, with the round
  constants computed from their defining square and cube root fractions);
- `build_evidence_package`;
- `ledger_to_jsonl` (the `json.dumps(e, ensure_ascii=False) + "\n"` join,
  specialised to the evidence-record dictionaries the session ledger holds);
- `parse_jsonl` (UTF-8 decoding with `errors="ignore"`, `str.splitlines`,
  `str.strip`, and per-line `json.loads` with failures dropped);
- the `Verificar` button handler (digest of the candidate, evidence universe
  built from the session ledger plus the optional uploaded JSONL, and the
  `e.get("sha256") == vhash` list comprehension, including the
  `AttributeError` that `.get` raises on a non-dict value).

Python strings are modelled as `List Char` (Unicode scalar values; lone
surrogates, which CPython tolerates, are outside the model), bytes as natural
numbers, and machine words as `Nat` reduced modulo `2 ^ w`.
-/

/-- A Python `str`, as its sequence of Unicode scalar values. -/
abbrev PyStr := List Char

/-! ## UTF-8 encoding and decoding

`parse_jsonl` starts with `content.decode("utf-8", errors="ignore")`; the
export path encodes `ledger_to_jsonl` output as UTF-8.  The decoder below
skips a single byte at each undecodable position.  CPython skips the maximal
ill-formed subpart instead, but the two policies produce the same text,
because every proper prefix of a multi-byte sequence consists of continuation
bytes, none of which is decodable on its own. -/

/-- UTF-8 encoding of one Unicode scalar value. -/
def utf8EncodeChar (c : Char) : List Nat :=
  if c.toNat < 128 then [c.toNat]
  else if c.toNat < 2048 then [192 + c.toNat / 64, 128 + c.toNat % 64]
  else if c.toNat < 65536 then
    [224 + c.toNat / 4096, 128 + c.toNat / 64 % 64, 128 + c.toNat % 64]
  else
    [240 + c.toNat / 262144, 128 + c.toNat / 4096 % 64, 128 + c.toNat / 64 % 64,
      128 + c.toNat % 64]

/-- UTF-8 encoding of a character sequence (Python `str.encode("utf-8")`). -/
def pyStrToUtf8 (cs : PyStr) : List Nat := (cs.map utf8EncodeChar).flatten

/-- UTF-8 encoding of a string. -/
def strToUtf8 (s : String) : List Nat := pyStrToUtf8 s.data

/-- Tests for a UTF-8 continuation byte. -/
def isCont (b : Nat) : Bool := 128 ≤ b && b ≤ 191

/-- Lower bound for the first continuation byte after leading byte `b`
(the E0/F0 rows exclude overlong forms). -/
def cont1Lo (b : Nat) : Nat := if b = 224 then 160 else if b = 240 then 144 else 128

/-- Upper bound for the first continuation byte after leading byte `b`
(the ED row excludes surrogates, the F4 row values above U+10FFFF). -/
def cont1Hi (b : Nat) : Nat := if b = 237 then 159 else if b = 244 then 143 else 191

/-- Range check for the first continuation byte after leading byte `b`. -/
def cont1Ok (b c1 : Nat) : Bool := cont1Lo b ≤ c1 && c1 ≤ cont1Hi b

/-- Decodes one UTF-8 sequence starting with byte `b`, returning the scalar
value and the unconsumed bytes, or `none` when no well-formed sequence starts
here.  Overlong forms, surrogates and values above U+10FFFF are rejected,
exactly as the strict table-driven CPython decoder does. -/
def utf8DecodeAt (b : Nat) (rest : List Nat) : Option (Char × List Nat) :=
  if b < 128 then some (Char.ofNat b, rest)
  else if 194 ≤ b && b ≤ 223 then
    match rest with
    | c1 :: rest1 =>
      if isCont c1 then some (Char.ofNat ((b - 192) * 64 + (c1 - 128)), rest1) else none
    | [] => none
  else if 224 ≤ b && b ≤ 239 then
    match rest with
    | c1 :: c2 :: rest2 =>
      if cont1Ok b c1 && isCont c2 then
        some (Char.ofNat ((b - 224) * 4096 + (c1 - 128) * 64 + (c2 - 128)), rest2)
      else none
    | _ => none
  else if 240 ≤ b && b ≤ 244 then
    match rest with
    | c1 :: c2 :: c3 :: rest3 =>
      if cont1Ok b c1 && isCont c2 && isCont c3 then
        some (Char.ofNat ((b - 240) * 262144 + (c1 - 128) * 4096 + (c2 - 128) * 64 + (c3 - 128)),
          rest3)
      else none
    | _ => none
  else none

/-- Fuelled decoding loop; one unit of fuel is spent per decoded character or
skipped byte, so `length + 1` fuel always suffices. -/
def pyDecodeUtf8IgnoreGo : Nat → List Nat → List Char
  | 0, _ => []
  | _ + 1, [] => []
  | fuel + 1, b :: rest =>
    match utf8DecodeAt b rest with
    | some (c, after) => c :: pyDecodeUtf8IgnoreGo fuel after
    | none => pyDecodeUtf8IgnoreGo fuel rest

/-- Python `content.decode("utf-8", errors="ignore")`: decode UTF-8, silently
dropping undecodable bytes. -/
def pyDecodeUtf8Ignore (bs : List Nat) : List Char :=
  pyDecodeUtf8IgnoreGo (bs.length + 1) bs

/-! ## `str.splitlines` and `str.strip` -/

/-- The line boundaries recognised by Python `str.splitlines`: LF, CR, VT, FF,
FS, GS, RS, NEL, LINE SEPARATOR and PARAGRAPH SEPARATOR (CRLF is one break). -/
def isPyLineBreak (c : Char) : Bool :=
  c.toNat = 10 || c.toNat = 13 || c.toNat = 11 || c.toNat = 12 ||
  c.toNat = 28 || c.toNat = 29 || c.toNat = 30 ||
  c.toNat = 133 || c.toNat = 8232 || c.toNat = 8233

/-- Worker for `pySplitlines`; `acc` holds the current line reversed. -/
def pySplitlinesGo : List Char → List Char → List PyStr
  | [], acc => if acc.isEmpty then [] else [acc.reverse]
  | '\r' :: '\n' :: rest, acc => acc.reverse :: pySplitlinesGo rest []
  | c :: rest, acc =>
    if isPyLineBreak c then acc.reverse :: pySplitlinesGo rest []
    else pySplitlinesGo rest (c :: acc)

/-- Python `str.splitlines`: split at line boundaries, with no empty final
line after a trailing break. -/
def pySplitlines (cs : PyStr) : List PyStr := pySplitlinesGo cs []

/-- The characters stripped by Python `str.strip()` (Unicode whitespace). -/
def pyIsSpace (c : Char) : Bool :=
  (9 ≤ c.toNat && c.toNat ≤ 13) || (28 ≤ c.toNat && c.toNat ≤ 31) ||
  c.toNat = 32 || c.toNat = 133 || c.toNat = 160 || c.toNat = 5760 ||
  (8192 ≤ c.toNat && c.toNat ≤ 8202) || c.toNat = 8232 || c.toNat = 8233 ||
  c.toNat = 8239 || c.toNat = 8287 || c.toNat = 12288

/-- Python `str.strip()`: remove leading and trailing whitespace. -/
def pyStrip (cs : PyStr) : PyStr :=
  ((cs.dropWhile pyIsSpace).reverse.dropWhile pyIsSpace).reverse

/-! ## JSON values

Python `json.loads` yields `None`, `bool`, `int`, `float`, `str`, `list` and
`dict` values.  Integer literals become `num`; literals with a fraction or
exponent become floats, modelled here exactly (`fnum m e` stands for
`m * 10 ^ e`) rather than with IEEE-754 rounding; the non-finite literals
`NaN`, `Infinity` and `-Infinity`, which `json.loads` accepts by default, get
their own constructors.  Lone surrogates (which CPython can hold in a `str`)
are outside the model. -/

inductive Json where
  | null
  | bool (b : Bool)
  | num (n : Int)
  | fnum (m : Int) (e : Int)
  | nan
  | inf
  | neginf
  | str (s : String)
  | arr (elems : List Json)
  | obj (members : List (String × Json))

/-- The whitespace skipped inside JSON by the CPython scanner: space, tab,
line feed, carriage return. -/
def skipJsonWs (cs : PyStr) : PyStr :=
  cs.dropWhile (fun c => c == ' ' || c == '\t' || c == '\n' || c == '\r')

/-- Value of one hexadecimal digit (both cases, as in `\uXXXX` escapes). -/
def hexDigitVal (c : Char) : Option Nat :=
  if '0' ≤ c && c ≤ '9' then some (c.toNat - 48)
  else if 'a' ≤ c && c ≤ 'f' then some (c.toNat - 87)
  else if 'A' ≤ c && c ≤ 'F' then some (c.toNat - 55)
  else none

/-- Value of a four-digit hexadecimal escape. -/
def hexQuad (h1 h2 h3 h4 : Char) : Option Nat := do
  let v1 ← hexDigitVal h1
  let v2 ← hexDigitVal h2
  let v3 ← hexDigitVal h3
  let v4 ← hexDigitVal h4
  pure (v1 * 4096 + v2 * 256 + v3 * 16 + v4)

/-- The single-character string escapes of JSON. -/
def escMap (e : Char) : Option Char :=
  if e = '"' then some '"'
  else if e = '\\' then some '\\'
  else if e = '/' then some '/'
  else if e = 'b' then some (Char.ofNat 8)
  else if e = 'f' then some (Char.ofNat 12)
  else if e = 'n' then some '\n'
  else if e = 'r' then some '\r'
  else if e = 't' then some '\t'
  else none

/-- Prepends a character to the first component of a parse result. -/
def consFst (c : Char) (p : PyStr × PyStr) : PyStr × PyStr := (c :: p.1, p.2)

/-- Parses a JSON string body (the opening quote already consumed), returning
the content and the text after the closing quote.  Strict mode, as in
`json.loads`: raw control characters below U+0020 are rejected.  Escaped
surrogate pairs are combined; a lone escaped surrogate (which CPython keeps as
a lone surrogate character) is outside the model and rejected. -/
def parseStringBody : PyStr → Option (PyStr × PyStr)
  | [] => none
  | '"' :: rest => some ([], rest)
  | '\\' :: rest =>
    match rest with
    | [] => none
    | 'u' :: h1 :: h2 :: h3 :: h4 :: rest2 =>
      match hexQuad h1 h2 h3 h4 with
      | none => none
      | some n =>
        if n < 55296 || 57343 < n then
          Option.map (consFst (Char.ofNat n)) (parseStringBody rest2)
        else if n < 56320 then
          match rest2 with
          | '\\' :: 'u' :: g1 :: g2 :: g3 :: g4 :: rest3 =>
            match hexQuad g1 g2 g3 g4 with
            | some m =>
              if 56320 ≤ m && m ≤ 57343 then
                Option.map (consFst (Char.ofNat (65536 + (n - 55296) * 1024 + (m - 56320))))
                  (parseStringBody rest3)
              else none
            | none => none
          | _ => none
        else none
    | e :: rest1 =>
      match escMap e with
      | some c => Option.map (consFst c) (parseStringBody rest1)
      | none => none
  | c :: rest =>
    if c.toNat < 32 then none else Option.map (consFst c) (parseStringBody rest)

/-- Decimal digit test. -/
def isDigitCh (c : Char) : Bool := '0' ≤ c && c ≤ '9'

/-- Maximal run of decimal digits, as digit values. -/
def digitRun : PyStr → List Nat × PyStr
  | [] => ([], [])
  | c :: rest =>
    if isDigitCh c then
      let p := digitRun rest
      ((c.toNat - 48) :: p.1, p.2)
    else ([], c :: rest)

/-- Numeric value of a digit sequence. -/
def digitsVal (ds : List Nat) : Nat := ds.foldl (fun a d => 10 * a + d) 0

/-- Integer part of a JSON number: `0`, or a nonzero digit followed by any
digits (leading zeros are not part of the grammar). -/
def parseIntPart : PyStr → Option (List Nat × PyStr)
  | '0' :: rest => some ([0], rest)
  | c :: rest =>
    if isDigitCh c then
      let p := digitRun rest
      some ((c.toNat - 48) :: p.1, p.2)
    else none
  | [] => none

/-- Fractional part of a JSON number; `[]` when absent. -/
def parseFrac : PyStr → Option (List Nat × PyStr)
  | '.' :: rest =>
    let p := digitRun rest
    if p.1.isEmpty then none else some p
  | cs => some ([], cs)

/-- Exponent part of a JSON number; `none` in the first component when
absent. -/
def parseExp : PyStr → Option (Option Int × PyStr)
  | c :: rest =>
    if c = 'e' || c = 'E' then
      match rest with
      | '+' :: r2 =>
        let p := digitRun r2
        if p.1.isEmpty then none else some (some (Int.ofNat (digitsVal p.1)), p.2)
      | '-' :: r2 =>
        let p := digitRun r2
        if p.1.isEmpty then none else some (some (-(Int.ofNat (digitsVal p.1))), p.2)
      | r2 =>
        let p := digitRun r2
        if p.1.isEmpty then none else some (some (Int.ofNat (digitsVal p.1)), p.2)
    else some (none, c :: rest)
  | [] => some (none, [])

/-- Parses a JSON number following the grammar of the CPython `NUMBER_RE`
regular expression: an integer literal (no fraction, no exponent) gives an
`int`, anything else a float. -/
def parseNumber (cs : PyStr) : Option (Json × PyStr) := do
  let neg := if cs.head? = some '-' then true else false
  let body := if neg then cs.tail else cs
  let (ids, r1) ← parseIntPart body
  let (fds, r2) ← parseFrac r1
  let (oe, r3) ← parseExp r2
  if fds.isEmpty && oe.isNone then
    let v : Int := Int.ofNat (digitsVal ids)
    pure (Json.num (if neg then -v else v), r3)
  else
    let m : Int := Int.ofNat (digitsVal (ids ++ fds))
    pure (Json.fnum (if neg then -m else m) ((oe.getD 0) - Int.ofNat fds.length), r3)

/-- Inserts into a Python dict under construction: a repeated key keeps its
first position and takes the latest value, as in the `dict` constructor. -/
def dictInsert (kvs : List (String × Json)) (k : String) (v : Json) : List (String × Json) :=
  if kvs.any (fun p => p.1 == k) then kvs.map (fun p => if p.1 == k then (k, v) else p)
  else kvs ++ [(k, v)]

/-- Builds a Python dict from the key/value pairs of an object literal in
source order. -/
def buildDict (pairs : List (String × Json)) : List (String × Json) :=
  pairs.foldl (fun acc p => dictInsert acc p.1 p.2) []

/-- Consumes an expected literal from the front of the input, if present. -/
def dropLit : List Char → PyStr → Option PyStr
  | [], cs => some cs
  | l :: ls, c :: cs => if c = l then dropLit ls cs else none
  | _ :: _, [] => none

/-- Mode of the fuelled JSON scanner: a value, the element loop of an array,
or the member loop of an object (with the pairs parsed so far). -/
inductive PMode where
  | value
  | elems (acc : List Json)
  | members (acc : List (String × Json))

/-- Fuelled recursive-descent scanner for JSON, mirroring the CPython pure
Python scanner (`py_make_scanner`): values, arrays and objects with the exact
whitespace and delimiter handling of `json.loads`.  One unit of fuel is spent
per nested value and per loop iteration, so `length + 1` fuel suffices. -/
def parseGo : Nat → PMode → PyStr → Option (Json × PyStr)
  | 0, _, _ => none
  | fuel + 1, .value, cs =>
    match cs with
    | [] => none
    | c :: rest =>
      if c = '\x7b' then
        match skipJsonWs rest with
        | '\x7d' :: r2 => some (Json.obj [], r2)
        | r2 => parseGo fuel (.members []) r2
      else if c = '[' then
        match skipJsonWs rest with
        | ']' :: r2 => some (Json.arr [], r2)
        | r2 => parseGo fuel (.elems []) r2
      else if c = '"' then
        Option.map (fun p => (Json.str (String.mk p.1), p.2)) (parseStringBody rest)
      else if c = 't' then
        Option.map (fun r => (Json.bool true, r)) (dropLit ['r', 'u', 'e'] rest)
      else if c = 'f' then
        Option.map (fun r => (Json.bool false, r)) (dropLit ['a', 'l', 's', 'e'] rest)
      else if c = 'n' then
        Option.map (fun r => (Json.null, r)) (dropLit ['u', 'l', 'l'] rest)
      else if c = 'N' then
        Option.map (fun r => (Json.nan, r)) (dropLit ['a', 'N'] rest)
      else if c = 'I' then
        Option.map (fun r => (Json.inf, r)) (dropLit ['n', 'f', 'i', 'n', 'i', 't', 'y'] rest)
      else if c = '-' then
        match dropLit ['I', 'n', 'f', 'i', 'n', 'i', 't', 'y'] rest with
        | some r => some (Json.neginf, r)
        | none => parseNumber (c :: rest)
      else if isDigitCh c then parseNumber (c :: rest)
      else none
  | fuel + 1, .elems acc, cs => do
    let (v, r1) ← parseGo fuel .value cs
    match skipJsonWs r1 with
    | ',' :: r2 => parseGo fuel (.elems (acc ++ [v])) (skipJsonWs r2)
    | ']' :: r2 => some (Json.arr (acc ++ [v]), r2)
    | _ => none
  | fuel + 1, .members acc, cs =>
    match cs with
    | '"' :: rest => do
      let (k, r1) ← parseStringBody rest
      match skipJsonWs r1 with
      | ':' :: r2 => do
        let (v, r3) ← parseGo fuel .value (skipJsonWs r2)
        match skipJsonWs r3 with
        | ',' :: r4 => parseGo fuel (.members (acc ++ [(String.mk k, v)])) (skipJsonWs r4)
        | '\x7d' :: r4 => some (Json.obj (buildDict (acc ++ [(String.mk k, v)])), r4)
        | _ => none
      | _ => none
    | _ => none

/-- Python `json.loads` on one line: skip leading whitespace, scan one value,
require only whitespace after it (else `Extra data`), and fail on anything
the grammar rejects. -/
def json_loads (line : PyStr) : Option Json :=
  let cs := skipJsonWs line
  match parseGo (cs.length + 1) .value cs with
  | some (v, rest) => if (skipJsonWs rest).isEmpty then some v else none
  | none => none

/-! ## Serialisation (`json.dumps(e, ensure_ascii=False)`) -/

/-- Lowercase hexadecimal digit. -/
def hexDigitStd (n : Nat) : Char :=
  if n < 10 then Char.ofNat (48 + n) else Char.ofNat (87 + n)

/-- The escaping applied by `json.dumps` with `ensure_ascii=False`: only the
quote, the backslash and control characters below U+0020 are escaped; every
other character, ASCII or not, is emitted verbatim. -/
def escapeJsonChar (c : Char) : List Char :=
  if c = '"' then ['\\', '"']
  else if c = '\\' then ['\\', '\\']
  else if c = '\n' then ['\\', 'n']
  else if c = '\r' then ['\\', 'r']
  else if c = '\t' then ['\\', 't']
  else if c.toNat = 8 then ['\\', 'b']
  else if c.toNat = 12 then ['\\', 'f']
  else if c.toNat < 32 then ['\\', 'u', '0', '0', hexDigitStd (c.toNat / 16), hexDigitStd (c.toNat % 16)]
  else [c]

/-- JSON rendering of a string. -/
def encodeJsonString (s : String) : PyStr :=
  ('"' :: (s.data.map escapeJsonChar).flatten) ++ ['"']

/-- Decimal digits of `n`, most significant first (fuelled worker). -/
def natToDecGo : Nat → Nat → List Char
  | 0, _ => []
  | fuel + 1, n => if n = 0 then [] else natToDecGo fuel (n / 10) ++ [Char.ofNat (48 + n % 10)]

/-- Decimal rendering of a natural number, as `json.dumps` renders the
`size_bytes` integer. -/
def natToDec (n : Nat) : List Char := if n = 0 then ['0'] else natToDecGo (n + 1) n

/-! ## Evidence records (`build_evidence_package`) -/

/-- The dictionary built by `build_evidence_package`, with its seven keys in
insertion order. -/
structure EvidenceRecord where
  schema : String
  filename : String
  size_bytes : Nat
  sha256 : String
  sha512 : String
  computed_at_utc : String
  notes : String

/-- The evidence-record dictionary as a generic JSON value, in the key order
`json.dumps` sees. -/
def recordToJson (r : EvidenceRecord) : Json :=
  Json.obj [("schema", Json.str r.schema), ("filename", Json.str r.filename),
    ("size_bytes", Json.num (Int.ofNat r.size_bytes)), ("sha256", Json.str r.sha256),
    ("sha512", Json.str r.sha512), ("computed_at_utc", Json.str r.computed_at_utc),
    ("notes", Json.str r.notes)]

/-- Output of `json.dumps(e, ensure_ascii=False)` on an evidence-record
dictionary: the default separators put `": "` after each key and `", "`
between members. -/
def dumpsRecord (r : EvidenceRecord) : PyStr :=
  ['\x7b'] ++ encodeJsonString "schema" ++ [':', ' '] ++ encodeJsonString r.schema ++
  [',', ' '] ++ encodeJsonString "filename" ++ [':', ' '] ++ encodeJsonString r.filename ++
  [',', ' '] ++ encodeJsonString "size_bytes" ++ [':', ' '] ++ natToDec r.size_bytes ++
  [',', ' '] ++ encodeJsonString "sha256" ++ [':', ' '] ++ encodeJsonString r.sha256 ++
  [',', ' '] ++ encodeJsonString "sha512" ++ [':', ' '] ++ encodeJsonString r.sha512 ++
  [',', ' '] ++ encodeJsonString "computed_at_utc" ++ [':', ' '] ++ encodeJsonString r.computed_at_utc ++
  [',', ' '] ++ encodeJsonString "notes" ++ [':', ' '] ++ encodeJsonString r.notes ++ ['\x7d']

/-- Source `ledger_to_jsonl`: one `json.dumps(e, ensure_ascii=False)` line per
entry, each followed by a newline, joined in order.  The session ledger only
ever holds `build_evidence_package` dictionaries, so the entry type is
`EvidenceRecord`. -/
def ledger_to_jsonl (entries : List EvidenceRecord) : PyStr :=
  (entries.map (fun e => dumpsRecord e ++ ['\n'])).flatten

/-- The body of the `parse_jsonl` loop: strip the line, skip it when blank,
append its parse when `json.loads` succeeds, drop it otherwise. -/
def parseJsonlStep (out : List Json) (ln : PyStr) : List Json :=
  let l := pyStrip ln
  if l.isEmpty then out
  else
    match json_loads l with
    | some v => out ++ [v]
    | none => out

/-- Source `parse_jsonl`: decode the bytes as UTF-8 ignoring undecodable
bytes, split into lines, strip each line, skip blank lines, `json.loads` each
remaining line, and silently drop lines that fail to parse, keeping input
order. -/
def parse_jsonl (content : List Nat) : List Json :=
  (pySplitlines (pyDecodeUtf8Ignore content)).foldl parseJsonlStep []

/-! ## SHA-256 and SHA-512 (`hashlib.sha256(data).hexdigest()` etc.)

FIPS 180-4, with `w`-bit words carried as `Nat` reduced modulo `2 ^ w`.  The
initial hash values and round constants are computed from their definitions:
the first `w` bits of the fractional parts of the square roots (respectively
cube roots) of the first primes. -/

/-- Trial-division primality test for the small prime tables (sound for
`n < 441`, divisors checked up to twenty). -/
def isPrimeSimple (n : Nat) : Bool :=
  2 ≤ n && (List.range 21).all (fun d => d < 2 || n % d != 0 || d = n)

/-- The first `k` prime numbers (enough range for the 80 primes up to 409). -/
def firstPrimes (k : Nat) : List Nat := ((List.range 420).filter isPrimeSimple).take k

/-- Bitwise construction of the integer cube root, highest bit first. -/
def icbrtGo (n : Nat) : Nat → Nat → Nat
  | 0, r => r
  | i + 1, r =>
    let r2 := r + 2 ^ i
    if r2 ^ 3 ≤ n then icbrtGo n i r2 else icbrtGo n i r

/-- Integer cube root (for inputs below `2 ^ 210`). -/
def icbrt (n : Nat) : Nat := icbrtGo n 70 0

/-- Bitwise construction of the integer square root, highest bit first. -/
def isqrtGo (n : Nat) : Nat → Nat → Nat
  | 0, r => r
  | i + 1, r =>
    let r2 := r + 2 ^ i
    if r2 * r2 ≤ n then isqrtGo n i r2 else isqrtGo n i r

/-- Integer square root (for inputs below `2 ^ 140`). -/
def isqrt (n : Nat) : Nat := isqrtGo n 70 0

/-- First `w` bits of the fractional part of the square root of `p`. -/
def fracSqrtBits (w p : Nat) : Nat := isqrt (p * 2 ^ (2 * w)) % 2 ^ w

/-- First `w` bits of the fractional part of the cube root of `p`. -/
def fracCbrtBits (w p : Nat) : Nat := icbrt (p * 2 ^ (3 * w)) % 2 ^ w

/-- Initial hash value: square-root fractions of the first eight primes. -/
def shaH0 (w : Nat) : List Nat := (firstPrimes 8).map (fracSqrtBits w)

/-- Round constants: cube-root fractions of the first `rounds` primes. -/
def shaK (w rounds : Nat) : List Nat := (firstPrimes rounds).map (fracCbrtBits w)

/-- Forces a word to an evaluated numeral before continuing: semantically the
identity continuation call `k x` (see `seqNat_eq`), but the `Nat` case split
makes kernel reduction evaluate `x` once and share the result, keeping the
digest computations feasible inside proofs by `rfl` and `decide`. -/
def seqNat {α : Type} (x : Nat) (k : Nat → α) : α :=
  match x with
  | 0 => k 0
  | n + 1 => k (n + 1)

/-- Right rotation of a `w`-bit word. -/
def rotr (w n x : Nat) : Nat := (x / 2 ^ n + x % 2 ^ n * 2 ^ (w - n)) % 2 ^ w

/-- Logical right shift. -/
def shr (n x : Nat) : Nat := x / 2 ^ n

/-- Bitwise complement of a `w`-bit word. -/
def notW (w x : Nat) : Nat := (2 ^ w - 1) ^^^ x

/-- SHA-256 big sigma 0. -/
def sigC0 (x : Nat) : Nat := rotr 32 2 x ^^^ rotr 32 13 x ^^^ rotr 32 22 x

/-- SHA-256 big sigma 1. -/
def sigC1 (x : Nat) : Nat := rotr 32 6 x ^^^ rotr 32 11 x ^^^ rotr 32 25 x

/-- SHA-256 small sigma 0. -/
def sigc0 (x : Nat) : Nat := rotr 32 7 x ^^^ rotr 32 18 x ^^^ shr 3 x

/-- SHA-256 small sigma 1. -/
def sigc1 (x : Nat) : Nat := rotr 32 17 x ^^^ rotr 32 19 x ^^^ shr 10 x

/-- SHA-512 big sigma 0. -/
def sigD0 (x : Nat) : Nat := rotr 64 28 x ^^^ rotr 64 34 x ^^^ rotr 64 39 x

/-- SHA-512 big sigma 1. -/
def sigD1 (x : Nat) : Nat := rotr 64 14 x ^^^ rotr 64 18 x ^^^ rotr 64 41 x

/-- SHA-512 small sigma 0. -/
def sigd0 (x : Nat) : Nat := rotr 64 1 x ^^^ rotr 64 8 x ^^^ shr 7 x

/-- SHA-512 small sigma 1. -/
def sigd1 (x : Nat) : Nat := rotr 64 19 x ^^^ rotr 64 61 x ^^^ shr 6 x

/-- Big-endian bytes of `n`, `width` bytes wide. -/
def natToBytesBE (width n : Nat) : List Nat :=
  (List.range width).map (fun i => n / 2 ^ (8 * (width - 1 - i)) % 256)

/-- Big-endian word value of a byte list. -/
def bytesToWordBE (bs : List Nat) : Nat := bs.foldl (fun a b => a * 256 + b) 0

/-- Fuelled chunking worker. -/
def chunksGo (k : Nat) : Nat → List Nat → List (List Nat)
  | 0, _ => []
  | _ + 1, [] => []
  | fuel + 1, l => l.take k :: chunksGo k fuel (l.drop k)

/-- Splits a byte list into consecutive chunks of `k` bytes. -/
def chunksOf (k : Nat) (l : List Nat) : List (List Nat) := chunksGo k (l.length + 1) l

/-- Merkle-Damgard padding: `0x80`, zeros, then the bit length on `lenBytes`
big-endian bytes, reaching a multiple of the block size. -/
def shaPad (blockBytes lenBytes : Nat) (msg : List Nat) : List Nat :=
  let L := msg.length
  let zeros := (blockBytes - (L + 1 + lenBytes) % blockBytes) % blockBytes
  msg ++ [128] ++ List.replicate zeros 0 ++ natToBytesBE lenBytes (8 * L)

/-- The sixteen `w`-bit message words of one block. -/
def shaWords (w : Nat) (block : List Nat) : List Nat :=
  (chunksOf (w / 8) block).map bytesToWordBE

/-- Message schedule: the first sixteen words come from the block, the rest
from the small sigma recurrence. -/
def shaSchedule (w rounds : Nat) (ss0 ss1 : Nat → Nat) (block : List Nat) : List Nat :=
  (List.range rounds).foldl
    (fun ws i =>
      if i < 16 then seqNat (block.getD i 0) (fun x => ws ++ [x])
      else
        seqNat ((ss1 (ws.getD (i - 2) 0) + ws.getD (i - 7) 0 + ss0 (ws.getD (i - 15) 0)
          + ws.getD (i - 16) 0) % 2 ^ w) (fun x => ws ++ [x]))
    []

/-- The eight working variables of the compression function. -/
structure Hash8 where
  a : Nat
  b : Nat
  c : Nat
  d : Nat
  e : Nat
  f : Nat
  g : Nat
  h : Nat

/-- Forces a word list (spine and elements) to evaluated form before
continuing; semantically the identity continuation call (`seqNatList_eq`). -/
def seqNatList {α : Type} (l : List Nat) (k : List Nat → α) : α :=
  match l with
  | [] => k []
  | x :: xs => seqNat x (fun x2 => seqNatList xs (fun xs2 => k (x2 :: xs2)))

/-- Forces the eight working variables to evaluated numerals before
continuing; semantically the identity continuation call (`forceHash8_eq`). -/
def forceHash8 {α : Type} (s : Hash8) (k : Hash8 → α) : α :=
  match s with
  | ⟨a, b, c, d, e, f, g, h⟩ =>
    seqNat a fun a2 => seqNat b fun b2 => seqNat c fun c2 => seqNat d fun d2 =>
    seqNat e fun e2 => seqNat f fun f2 => seqNat g fun g2 => seqNat h fun h2 =>
    k ⟨a2, b2, c2, d2, e2, f2, g2, h2⟩

/-- The compression rounds of one block, over the remaining round indices. -/
def shaRounds (w : Nat) (bs0 bs1 : Nat → Nat) (K ws : List Nat) : List Nat → Hash8 → Hash8
  | [], s => s
  | i :: is, s =>
    seqNat ((s.h + bs1 s.e + ((s.e &&& s.f) ^^^ (notW w s.e &&& s.g))
        + K.getD i 0 + ws.getD i 0) % 2 ^ w) (fun t1 =>
      seqNat ((bs0 s.a + ((s.a &&& s.b) ^^^ (s.a &&& s.c) ^^^ (s.b &&& s.c))) % 2 ^ w)
        (fun t2 =>
          shaRounds w bs0 bs1 K ws is
            ⟨(t1 + t2) % 2 ^ w, s.a, s.b, s.c, (s.d + t1) % 2 ^ w, s.e, s.f, s.g⟩))

/-- The compression rounds of one block. -/
def shaCompressBlock (w : Nat) (bs0 bs1 : Nat → Nat) (K ws : List Nat) (st : Hash8) : Hash8 :=
  shaRounds w bs0 bs1 K ws (List.range K.length) st

/-- Chains the blocks: compress each one and add the result to the incoming
hash value, forcing the state between blocks. -/
def shaBlocks (w rounds : Nat) (bs0 bs1 ss0 ss1 : Nat → Nat) (K : List Nat) :
    List (List Nat) → Hash8 → Hash8
  | [], st => st
  | block :: blocks, st =>
    forceHash8 (seqNatList (shaSchedule w rounds ss0 ss1 (shaWords w block)) (fun ws =>
        shaCompressBlock w bs0 bs1 K ws st)) (fun t =>
      forceHash8 ⟨(st.a + t.a) % 2 ^ w, (st.b + t.b) % 2 ^ w, (st.c + t.c) % 2 ^ w,
          (st.d + t.d) % 2 ^ w, (st.e + t.e) % 2 ^ w, (st.f + t.f) % 2 ^ w,
          (st.g + t.g) % 2 ^ w, (st.h + t.h) % 2 ^ w⟩ (fun st2 =>
        shaBlocks w rounds bs0 bs1 ss0 ss1 K blocks st2))

/-- Full SHA-2 digest pipeline, returning the eight final hash words. -/
def shaCore (w rounds blockBytes lenBytes : Nat) (bs0 bs1 ss0 ss1 : Nat → Nat)
    (msg : List Nat) : List Nat :=
  let H0 := shaH0 w
  let fin := seqNatList (shaK w rounds) (fun K =>
    shaBlocks w rounds bs0 bs1 ss0 ss1 K
      (chunksOf blockBytes (shaPad blockBytes lenBytes msg))
      ⟨H0.getD 0 0, H0.getD 1 0, H0.getD 2 0, H0.getD 3 0,
        H0.getD 4 0, H0.getD 5 0, H0.getD 6 0, H0.getD 7 0⟩)
  [fin.a, fin.b, fin.c, fin.d, fin.e, fin.f, fin.g, fin.h]

/-- Big-endian byte emission of the hash words. -/
def wordsToBytesBE (w : Nat) (ws : List Nat) : List Nat :=
  (ws.map (natToBytesBE (w / 8))).flatten

/-- Lowercase hexadecimal rendering of a byte sequence (`.hexdigest()`). -/
def bytesToHex (bs : List Nat) : PyStr :=
  (bs.map (fun b => [hexDigitStd (b / 16 % 16), hexDigitStd (b % 16)])).flatten

/-- Source `sha256_hex`: `hashlib.sha256(data).hexdigest()`. -/
def sha256_hex (data : List Nat) : String :=
  String.mk (bytesToHex (wordsToBytesBE 32 (shaCore 32 64 64 8 sigC0 sigC1 sigc0 sigc1 data)))

/-- Source `sha512_hex`: `hashlib.sha512(data).hexdigest()`. -/
def sha512_hex (data : List Nat) : String :=
  String.mk (bytesToHex (wordsToBytesBE 64 (shaCore 64 80 128 16 sigD0 sigD1 sigd0 sigd1 data)))

/-! ## Evidence building and verification -/

/-- Source `build_evidence_package`: digest the bytes, record the byte count,
the fixed schema tag, the caller-supplied filename and notes, and the clock
reading.  `now_iso_utc()` reads the system clock; the reading is passed in
here as the `now` argument. -/
def build_evidence_package (file_bytes : List Nat) (filename : String) (notes : String)
    (now : String) : EvidenceRecord :=
  { schema := "edu.unie.ud1.evidence.v1"
    filename := filename
    size_bytes := file_bytes.length
    sha256 := sha256_hex file_bytes
    sha512 := sha512_hex file_bytes
    computed_at_utc := now
    notes := notes }

/-- The exception raised by the verification handler: `.get` on a value that
is not a dict raises `AttributeError`. -/
inductive PyError where
  | attributeError

/-- Python `dict.get`: the value under `k`, or `None` when absent. -/
def jsonGet (kvs : List (String × Json)) (k : String) : Option Json :=
  (kvs.find? (fun p => p.1 == k)).map (fun p => p.2)

/-- One evaluation of `e.get("sha256") == vhash`: on a dict, compare the
field (a missing field gives `None`, which never equals a string; a value of
any non-string type never equals a string either); on any other value `.get`
raises `AttributeError`. -/
def sha256FieldCheck (e : Json) (vhash : String) : Except PyError Bool :=
  match e with
  | .obj kvs =>
    .ok (match jsonGet kvs "sha256" with
      | some (.str s) => s == vhash
      | _ => false)
  | _ => .error .attributeError

/-- The list comprehension `[e for e in evids if e.get("sha256") == vhash]`,
evaluated left to right, stopping at the first raised exception. -/
def filterMatches : List Json → String → Except PyError (List Json)
  | [], _ => .ok []
  | e :: es, vhash => do
    let b ← sha256FieldCheck e vhash
    let tl ← filterMatches es vhash
    pure (if b then e :: tl else tl)

/-- The evidence universe of the handler: a copy of the session ledger
(`list(st.session_state.ledger)`) extended with the parsed upload when one
was supplied. -/
def evidenceUniverse (ledger : List EvidenceRecord) (ext : Option (List Nat)) : List Json :=
  ledger.map recordToJson ++ (match ext with | some bs => parse_jsonl bs | none => [])

/-- The verification computation of the `Verificar` handler: digest the
candidate bytes, build the evidence universe, and filter it by the
`sha256` comparison. -/
def verify (vbytes : List Nat) (ledger : List EvidenceRecord) (ext : Option (List Nat)) :
    Except PyError (List Json) :=
  let vhash := sha256_hex vbytes
  filterMatches (evidenceUniverse ledger ext) vhash

/-- The per-session state the handler touches: `st.session_state.ledger`. -/
structure SessionState where
  ledger : List EvidenceRecord

/-- What the handler displays. -/
inductive VerifyView where
  | warning
  | found (count : Nat) (first : Json)
  | notFound

/-- The `Verificar` button handler: warn when no document was uploaded,
otherwise verify and report the match count and first match, or the
no-evidence message.  The handler reads the session ledger through the
`list(...)` copy inside `verify` and never assigns to it, so the resulting
state is returned unchanged on every path, including the raising one. -/
def verifyHandler (st : SessionState) (verFile verLedger : Option (List Nat)) :
    Except PyError VerifyView × SessionState :=
  match verFile with
  | none => (.ok .warning, st)
  | some vbytes =>
    match verify vbytes st.ledger verLedger with
    | .error e => (.error e, st)
    | .ok [] => (.ok .notFound, st)
    | .ok (m :: ms) => (.ok (.found (ms.length + 1) m), st)

/-- Tests whether a parsed value is a dict. -/
def isObjJson : Json → Bool
  | .obj _ => true
  | _ => false

/-- The boolean reading of `e.get("sha256") == vhash` on values where it
does not raise (dicts), and `false` elsewhere. -/
def sha256FieldIs (e : Json) (vhash : String) : Bool :=
  match e with
  | .obj kvs =>
    match jsonGet kvs "sha256" with
    | some (.str s) => s == vhash
    | _ => false
  | _ => false

/-- Lowercase hexadecimal digit test. -/
def isLowerHexDigit (c : Char) : Bool := ('0' ≤ c && c ≤ '9') || ('a' ≤ c && c ≤ 'f')

/-- Freedom from the three characters that `json.dumps` with
`ensure_ascii=False` leaves unescaped although `str.splitlines` breaks on
them: NEL (U+0085), LINE SEPARATOR (U+2028) and PARAGRAPH SEPARATOR
(U+2029). -/
def lbSafe (s : String) : Prop :=
  ∀ c ∈ s.data, c.toNat ≠ 133 ∧ c.toNat ≠ 8232 ∧ c.toNat ≠ 8233

instance (s : String) : Decidable (lbSafe s) := by
  unfold lbSafe; infer_instance

/-- All string fields of a record avoid the three unescaped line-break
characters. -/
def recordLBSafe (r : EvidenceRecord) : Prop :=
  lbSafe r.schema ∧ lbSafe r.filename ∧ lbSafe r.sha256 ∧ lbSafe r.sha512 ∧
  lbSafe r.computed_at_utc ∧ lbSafe r.notes

instance (r : EvidenceRecord) : Decidable (recordLBSafe r) := by
  unfold recordLBSafe; infer_instance

/-- Digit values of the decimal rendering (proof companion of `natToDecGo`:
see `natToDecGo_eq_map`). -/
def decDigits : Nat → Nat → List Nat
  | 0, _ => []
  | fuel + 1, n => if n = 0 then [] else decDigits fuel (n / 10) ++ [n % 10]

/-! ## Theorems -/

set_option maxRecDepth 100000

/-- On a universe whose members are all dicts, the match comprehension never
raises and computes the order-preserving filter by the `sha256` field. -/
theorem filterMatches_ok (vhash : String) :
    ∀ es : List Json, (∀ e ∈ es, isObjJson e = true) →
      filterMatches es vhash = .ok (es.filter (fun e => sha256FieldIs e vhash)) := by
  intro es h
  induction es with
  | nil => rfl
  | cons e es ih =>
    have he : isObjJson e = true := h e (by simp)
    have ih2 := ih (fun x hx => h x (by simp [hx]))
    cases e <;> simp [isObjJson] at he
    rename_i kvs
    simp only [filterMatches, sha256FieldCheck, bind, Except.bind, ih2, pure, Except.pure]
    cases hj : jsonGet kvs "sha256" with
    | none => simp [List.filter, sha256FieldIs, hj]
    | some v =>
      cases v <;> simp [List.filter, sha256FieldIs, hj]
      rename_i s
      cases hsv : s == vhash <;> simp [hsv] <;> simpa using hsv

/-- C1 (amended): for every candidate byte sequence, local ledger and
optional external ledger bytes whose evidence universe consists of dicts,
`verify` returns exactly the members of the universe (ledger first, then the
parsed external records, in order) whose `sha256` field equals the SHA-256
digest of the candidate under exact case-sensitive string equality, as an
order-preserving filter. -/
theorem verify_filters_universe (vbytes : List Nat) (ledger : List EvidenceRecord)
    (ext : Option (List Nat))
    (h : ∀ e ∈ evidenceUniverse ledger ext, isObjJson e = true) :
    verify vbytes ledger ext =
      Except.ok ((evidenceUniverse ledger ext).filter
        (fun e => sha256FieldIs e (sha256_hex vbytes))) :=
  filterMatches_ok _ _ h

/-- Witness for C1: a session record plus an external JSONL line, all dicts. -/
theorem verify_filters_universe_witness :
    verify [] [⟨"s", "f", 0, "x", "y", "t", "u"⟩]
        (some (strToUtf8 "\x7b\"sha256\": \"x\"\x7d\n")) =
      Except.ok ((evidenceUniverse [⟨"s", "f", 0, "x", "y", "t", "u"⟩]
        (some (strToUtf8 "\x7b\"sha256\": \"x\"\x7d\n"))).filter
          (fun e => sha256FieldIs e (sha256_hex []))) :=
  verify_filters_universe [] _ _ (by decide)

/-- Counterexample for C1 as frozen: with external text `5`, a well-formed
JSON line that is not an object, `verify` raises `AttributeError` instead of
returning the filtered universe (which would be the empty list). -/
theorem verify_filters_universe_cex :
    verify [] [] (some (strToUtf8 "5\n")) = Except.error PyError.attributeError ∧
      Except.error PyError.attributeError ≠
        Except.ok ((evidenceUniverse [] (some (strToUtf8 "5\n"))).filter
          (fun e => sha256FieldIs e (sha256_hex []))) :=
  ⟨rfl, nofun⟩

/-- C2 (amended): whenever every member of the evidence universe is a dict —
in particular for empty candidates, empty ledgers, and external text whose
undroppable lines are all JSON objects — `verify` returns a (possibly empty)
list, and a record lacking a `sha256` field is never a match. -/
theorem verify_total_on_dicts (vbytes : List Nat) (ledger : List EvidenceRecord)
    (ext : Option (List Nat))
    (h : ∀ e ∈ evidenceUniverse ledger ext, isObjJson e = true) :
    ∃ ms : List Json, verify vbytes ledger ext = Except.ok ms ∧
      ∀ kvs : List (String × Json), jsonGet kvs "sha256" = none → Json.obj kvs ∉ ms := by
  refine ⟨_, filterMatches_ok _ _ h, ?_⟩
  intro kvs hk hmem
  have hp := List.of_mem_filter hmem
  simp [sha256FieldIs, hk] at hp

/-- Witness for C2: malformed external text plus a dict line without a
`sha256` field still yields a list. -/
theorem verify_total_on_dicts_witness :
    ∃ ms : List Json, verify [] [] (some (strToUtf8 "not json at all\n\x7b\"a\": 1\x7d\n")) =
        Except.ok ms ∧
      ∀ kvs : List (String × Json), jsonGet kvs "sha256" = none → Json.obj kvs ∉ ms :=
  verify_total_on_dicts [] [] _ (by decide)

/-- Counterexample for C2 as frozen: external text `null` deserialises to a
single non-dict record, and the verify call raises `AttributeError` rather
than returning a list. -/
theorem verify_total_cex :
    verify [] [] (some (strToUtf8 "null\n")) = Except.error PyError.attributeError :=
  rfl

/-- C7: `build_evidence_package` is total, and the returned record digests
exactly the input bytes, reports their exact length, carries the fixed schema
tag and the supplied notes. -/
theorem build_evidence_package_fields (file_bytes : List Nat) (filename notes now : String) :
    (build_evidence_package file_bytes filename notes now).sha256 = sha256_hex file_bytes ∧
    (build_evidence_package file_bytes filename notes now).sha512 = sha512_hex file_bytes ∧
    (build_evidence_package file_bytes filename notes now).size_bytes = file_bytes.length ∧
    (build_evidence_package file_bytes filename notes now).schema = "edu.unie.ud1.evidence.v1" ∧
    (build_evidence_package file_bytes filename notes now).notes = notes :=
  ⟨rfl, rfl, rfl, rfl, rfl⟩

/-- C8: the verification handler never mutates the session ledger (it reads
it through the `list(...)` copy) and, the external upload being a value it
only reads, the whole session state is returned unchanged on every path,
including the raising one. -/
theorem verifyHandler_preserves_ledger (st : SessionState) (verFile verLedger : Option (List Nat)) :
    (verifyHandler st verFile verLedger).2 = st := by
  cases verFile with
  | none => rfl
  | some v =>
    cases hv : verify v st.ledger verLedger with
    | error e => simp [verifyHandler, hv]
    | ok ms => cases ms <;> simp [verifyHandler, hv]

/-- C10: `parse_jsonl` keeps every line that parses as JSON whatever its
type, so its output can contain non-mapping values such as a bare number or
an array. -/
theorem parse_jsonl_nonmapping :
    parse_jsonl (strToUtf8 "5\n[]\n") = [Json.num 5, Json.arr []] ∧
    isObjJson (Json.num 5) = false ∧ isObjJson (Json.arr []) = false :=
  ⟨rfl, rfl, rfl⟩

/-- A fixed-width big-endian byte rendering has exactly that width. -/
theorem natToBytesBE_length (width n : Nat) : (natToBytesBE width n).length = width := by
  simp [natToBytesBE]

/-- Byte emission of hash words: `w / 8` bytes per word. -/
theorem wordsToBytesBE_length (w : Nat) (ws : List Nat) :
    (wordsToBytesBE w ws).length = ws.length * (w / 8) := by
  induction ws with
  | nil => simp [wordsToBytesBE]
  | cons x xs ih =>
    simp only [wordsToBytesBE, List.map_cons, List.flatten_cons, List.length_append,
      natToBytesBE_length, List.length_cons, Nat.succ_mul] at ih ⊢
    rw [ih]; ring

/-- Hexadecimal rendering produces two characters per byte. -/
theorem bytesToHex_length (bs : List Nat) : (bytesToHex bs).length = 2 * bs.length := by
  induction bs with
  | nil => simp [bytesToHex]
  | cons b rest ih =>
    simp [bytesToHex] at ih ⊢
    omega

/-- The digit characters emitted for values below sixteen are lowercase
hexadecimal. -/
theorem hexDigitStd_isLower (n : Nat) (hn : n < 16) : isLowerHexDigit (hexDigitStd n) = true := by
  interval_cases n <;> decide

/-- Every character of a hexadecimal rendering is a lowercase hex digit. -/
theorem bytesToHex_chars (bs : List Nat) :
    ∀ c ∈ bytesToHex bs, isLowerHexDigit c = true := by
  induction bs with
  | nil => simp [bytesToHex]
  | cons b rest ih =>
    intro c hc
    rw [show bytesToHex (b :: rest) =
      hexDigitStd (b / 16 % 16) :: hexDigitStd (b % 16) :: bytesToHex rest from rfl] at hc
    rcases List.mem_cons.mp hc with h | h
    · exact h ▸ hexDigitStd_isLower _ (Nat.mod_lt _ (by norm_num))
    · rcases List.mem_cons.mp h with h2 | h2
      · exact h2 ▸ hexDigitStd_isLower _ (Nat.mod_lt _ (by norm_num))
      · exact ih c h2

/-- The SHA-2 core always emits its eight final hash words. -/
theorem shaCore_length (w rounds blockBytes lenBytes : Nat) (bs0 bs1 ss0 ss1 : Nat → Nat)
    (msg : List Nat) :
    (shaCore w rounds blockBytes lenBytes bs0 bs1 ss0 ss1 msg).length = 8 := by
  simp [shaCore]

/-- A SHA-256 hex digest has 64 characters. -/
theorem sha256_hex_length (b : List Nat) : (sha256_hex b).length = 64 := by
  simp [sha256_hex, String.length, bytesToHex_length, wordsToBytesBE_length, shaCore_length]

/-- A SHA-512 hex digest has 128 characters. -/
theorem sha512_hex_length (b : List Nat) : (sha512_hex b).length = 128 := by
  simp [sha512_hex, String.length, bytesToHex_length, wordsToBytesBE_length, shaCore_length]

/-- C6: both digest functions are total and deterministic (repeated calls on
equal byte sequences return equal strings) and produce lowercase hexadecimal
strings of 64 and 128 characters respectively; no input, including the empty
sequence, is excluded. -/
theorem digest_hex_shape (b b2 : List Nat) (c256 c512 : Char) :
    (sha256_hex b).length = 64 ∧ (sha512_hex b).length = 128 ∧
    (b2 = b → sha256_hex b2 = sha256_hex b ∧ sha512_hex b2 = sha512_hex b) ∧
    (c256 ∈ (sha256_hex b).data → isLowerHexDigit c256 = true) ∧
    (c512 ∈ (sha512_hex b).data → isLowerHexDigit c512 = true) := by
  refine ⟨sha256_hex_length b, sha512_hex_length b, fun h => by rw [h]; exact ⟨rfl, rfl⟩, ?_, ?_⟩
  · intro hc
    exact bytesToHex_chars _ c256 (by simpa [sha256_hex] using hc)
  · intro hc
    exact bytesToHex_chars _ c512 (by simpa [sha512_hex] using hc)

/-- Witness for C6 at the empty byte sequence, whose SHA-256 digest starts
with `e` and whose SHA-512 digest starts with `c`. -/
theorem digest_hex_shape_witness :
    (sha256_hex []).length = 64 ∧ (sha512_hex []).length = 128 ∧
    sha256_hex [] = sha256_hex [] ∧
    isLowerHexDigit 'e' = true ∧ isLowerHexDigit 'c' = true :=
  ⟨(digest_hex_shape [] [] 'e' 'c').1,
   (digest_hex_shape [] [] 'e' 'c').2.1,
   ((digest_hex_shape [] [] 'e' 'c').2.2.1 rfl).1,
   (digest_hex_shape [] [] 'e' 'c').2.2.2.1 (by decide),
   (digest_hex_shape [] [] 'e' 'c').2.2.2.2 (by decide)⟩

/-- The accumulator loop of `parse_jsonl` appends, in order, the parses of
the stripped non-blank lines that `json_loads` accepts. -/
theorem parse_jsonl_go (lines : List PyStr) (out : List Json) :
    lines.foldl parseJsonlStep out
    = out ++ (((lines.map pyStrip).filter (fun l => !l.isEmpty)).filterMap json_loads) := by
  induction lines generalizing out with
  | nil => simp
  | cons ln rest ih =>
    rw [List.foldl_cons]
    cases he : (pyStrip ln).isEmpty with
    | true =>
      rw [show parseJsonlStep out ln = out by simp [parseJsonlStep, he]]
      simp [he, ih]
    | false =>
      cases hl : json_loads (pyStrip ln) with
      | none =>
        rw [show parseJsonlStep out ln = out by simp [parseJsonlStep, he, hl]]
        simp [he, hl, ih]
      | some v =>
        rw [show parseJsonlStep out ln = out ++ [v] by simp [parseJsonlStep, he, hl]]
        rw [ih]
        simp [he, hl]

/-- C5: `parse_jsonl` splits the decoded text into lines, strips whitespace,
ignores blank lines, parses each remaining line as standalone JSON, silently
drops every line that fails to parse, and returns the parsed records in input
order; in particular one valid JSON line plus one garbage line yield exactly
the one valid record. -/
theorem parse_jsonl_is_line_filter (content : List Nat) :
    parse_jsonl content =
      (((pySplitlines (pyDecodeUtf8Ignore content)).map pyStrip).filter
        (fun l => !l.isEmpty)).filterMap json_loads ∧
    parse_jsonl (strToUtf8 " \x7b\"a\": 1\x7d\nga!rbage\n") = [Json.obj [("a", Json.num 1)]] :=
  ⟨by simpa [parse_jsonl] using parse_jsonl_go (pySplitlines (pyDecodeUtf8Ignore content)) [],
   rfl⟩

/-- Value of `Char.ofNat` on a valid scalar value. -/
theorem charToNat_ofNat {n : Nat} (h : n.isValidChar) : (Char.ofNat n).toNat = n := by
  unfold Char.ofNat
  rw [dif_pos h]
  rfl

/-- The scalar value of a character is below the surrogate block or between
it and U+110000. -/
theorem char_valid_cases (c : Char) : c.toNat < 55296 ∨ (57343 < c.toNat ∧ c.toNat < 1114112) :=
  c.valid

set_option maxHeartbeats 1600000 in
/-- One decoding step consumes exactly the UTF-8 encoding of a character and
returns that character. -/
theorem decodeGo_encodeChar (fuel : Nat) (c : Char) (bs : List Nat) :
    pyDecodeUtf8IgnoreGo (fuel + 1) (utf8EncodeChar c ++ bs) =
      c :: pyDecodeUtf8IgnoreGo fuel bs := by
  have hval := char_valid_cases c
  by_cases h1 : c.toNat < 128
  · have he : utf8EncodeChar c = [c.toNat] := by rw [utf8EncodeChar, if_pos h1]
    have hd : utf8DecodeAt c.toNat bs = some (c, bs) := by
      simp only [utf8DecodeAt]
      rw [if_pos h1, Char.ofNat_toNat]
    rw [he]
    simp only [List.append_eq, List.cons_append, List.nil_append, pyDecodeUtf8IgnoreGo, hd]
  · by_cases h2 : c.toNat < 2048
    · have he : utf8EncodeChar c = [192 + c.toNat / 64, 128 + c.toNat % 64] := by
        rw [utf8EncodeChar, if_neg h1, if_pos h2]
      have hd : utf8DecodeAt (192 + c.toNat / 64) ((128 + c.toNat % 64) :: bs)
          = some (c, bs) := by
        simp only [utf8DecodeAt, isCont, Bool.and_eq_true, decide_eq_true_eq]
        split_ifs
        all_goals try (exfalso; omega)
        rw [show (192 + c.toNat / 64 - 192) * 64 + (128 + c.toNat % 64 - 128) = c.toNat by omega,
          Char.ofNat_toNat]
      rw [he]
      simp only [List.append_eq, List.cons_append, List.nil_append, pyDecodeUtf8IgnoreGo, hd]
    · by_cases h3 : c.toNat < 65536
      · have hsur : c.toNat < 55296 ∨ 57343 < c.toNat :=
          hval.imp (fun h => h) (fun h => h.1)
        have he : utf8EncodeChar c
            = [224 + c.toNat / 4096, 128 + c.toNat / 64 % 64, 128 + c.toNat % 64] := by
          rw [utf8EncodeChar, if_neg h1, if_neg h2, if_pos h3]
        have hd : utf8DecodeAt (224 + c.toNat / 4096)
            ((128 + c.toNat / 64 % 64) :: (128 + c.toNat % 64) :: bs) = some (c, bs) := by
          simp only [utf8DecodeAt, isCont, cont1Ok, cont1Lo, cont1Hi, Bool.and_eq_true,
            decide_eq_true_eq]
          split_ifs
          all_goals try (exfalso; omega)
          all_goals
            rw [show (224 + c.toNat / 4096 - 224) * 4096 + (128 + c.toNat / 64 % 64 - 128) * 64
              + (128 + c.toNat % 64 - 128) = c.toNat by omega, Char.ofNat_toNat]
        rw [he]
        simp only [List.append_eq, List.cons_append, List.nil_append, pyDecodeUtf8IgnoreGo, hd]
      · have hup : c.toNat < 1114112 := by
          rcases hval with h | h
          · omega
          · exact h.2
        have he : utf8EncodeChar c
            = [240 + c.toNat / 262144, 128 + c.toNat / 4096 % 64, 128 + c.toNat / 64 % 64,
              128 + c.toNat % 64] := by
          rw [utf8EncodeChar, if_neg h1, if_neg h2, if_neg h3]
        have hd : utf8DecodeAt (240 + c.toNat / 262144)
            ((128 + c.toNat / 4096 % 64) :: (128 + c.toNat / 64 % 64)
              :: (128 + c.toNat % 64) :: bs) = some (c, bs) := by
          simp only [utf8DecodeAt, isCont, cont1Ok, cont1Lo, cont1Hi, Bool.and_eq_true,
            decide_eq_true_eq]
          split_ifs
          all_goals try (exfalso; omega)
          all_goals
            rw [show (240 + c.toNat / 262144 - 240) * 262144
              + (128 + c.toNat / 4096 % 64 - 128) * 4096 + (128 + c.toNat / 64 % 64 - 128) * 64
              + (128 + c.toNat % 64 - 128) = c.toNat by omega, Char.ofNat_toNat]
        rw [he]
        simp only [List.append_eq, List.cons_append, List.nil_append, pyDecodeUtf8IgnoreGo, hd]

/-- Every character encodes to at least one byte. -/
theorem utf8EncodeChar_length_pos (c : Char) : 1 ≤ (utf8EncodeChar c).length := by
  rw [utf8EncodeChar]
  split_ifs <;> simp

/-- A string never has more characters than UTF-8 bytes. -/
theorem length_le_pyStrToUtf8 (cs : List Char) : cs.length ≤ (pyStrToUtf8 cs).length := by
  induction cs with
  | nil => simp [pyStrToUtf8]
  | cons c cst ih =>
    have hp := utf8EncodeChar_length_pos c
    simp only [pyStrToUtf8, List.map_cons, List.flatten_cons, List.length_append,
      List.length_cons] at ih ⊢
    omega

/-- With enough fuel, decoding inverts encoding. -/
theorem decodeGo_pyStrToUtf8 (cs : List Char) :
    ∀ fuel, cs.length < fuel → pyDecodeUtf8IgnoreGo fuel (pyStrToUtf8 cs) = cs := by
  induction cs with
  | nil =>
    intro fuel hf
    cases fuel with
    | zero => omega
    | succ f => rfl
  | cons c cst ih =>
    intro fuel hf
    obtain ⟨f2, rfl⟩ : ∃ f2, fuel = f2 + 1 := ⟨fuel - 1, by omega⟩
    rw [show pyStrToUtf8 (c :: cst) = utf8EncodeChar c ++ pyStrToUtf8 cst from rfl]
    rw [decodeGo_encodeChar]
    rw [ih f2 (by simp only [List.length_cons] at hf; omega)]

/-- The `errors="ignore"` decoder inverts UTF-8 encoding on every character
sequence. -/
theorem pyDecode_pyStrToUtf8 (cs : List Char) : pyDecodeUtf8Ignore (pyStrToUtf8 cs) = cs := by
  rw [pyDecodeUtf8Ignore]
  exact decodeGo_pyStrToUtf8 cs _ (by have := length_le_pyStrToUtf8 cs; omega)


/-- Numeric reading of the first-continuation-byte range check. -/
theorem cont1Ok_bounds {b c1 : Nat} (h : cont1Ok b c1 = true) :
    (b = 224 ∧ 160 ≤ c1 ∧ c1 ≤ 191) ∨ (b = 237 ∧ 128 ≤ c1 ∧ c1 ≤ 159) ∨
    (b = 240 ∧ 144 ≤ c1 ∧ c1 ≤ 191) ∨ (b = 244 ∧ 128 ≤ c1 ∧ c1 ≤ 143) ∨
    (b ≠ 224 ∧ b ≠ 237 ∧ b ≠ 240 ∧ b ≠ 244 ∧ 128 ≤ c1 ∧ c1 ≤ 191) := by
  simp only [cont1Ok, cont1Lo, cont1Hi, Bool.and_eq_true, decide_eq_true_eq] at h
  split_ifs at h <;> omega

set_option maxHeartbeats 1600000 in
/-- A successful decoding step consumed exactly the UTF-8 encoding of the
character it returned: the decoder only accepts canonical encodings. -/
theorem utf8DecodeAt_encodes {b : Nat} {rest after : List Nat} {c : Char}
    (h : utf8DecodeAt b rest = some (c, after)) :
    b :: rest = utf8EncodeChar c ++ after := by
  simp only [utf8DecodeAt] at h
  split_ifs at h with hb1 hb2 hb3 hb4
  · obtain ⟨rfl, rfl⟩ : Char.ofNat b = c ∧ rest = after := by
      cases h
      exact ⟨rfl, rfl⟩
    have ht : (Char.ofNat b).toNat = b := charToNat_ofNat (Or.inl (by omega))
    rw [utf8EncodeChar, ht, if_pos hb1]
    rfl
  · simp only [Bool.and_eq_true, decide_eq_true_eq] at hb2
    cases rest with
    | nil => cases h
    | cons c1 rest1 =>
      simp only at h
      split_ifs at h with hc1
      simp only [isCont, Bool.and_eq_true, decide_eq_true_eq] at hc1
      obtain ⟨rfl, rfl⟩ : Char.ofNat ((b - 192) * 64 + (c1 - 128)) = c ∧ rest1 = after := by
        cases h
        exact ⟨rfl, rfl⟩
      have ht : (Char.ofNat ((b - 192) * 64 + (c1 - 128))).toNat
          = (b - 192) * 64 + (c1 - 128) :=
        charToNat_ofNat (Or.inl (by omega))
      rw [utf8EncodeChar, ht, if_neg (by omega), if_pos (by omega)]
      simp only [List.cons_append, List.nil_append, List.cons.injEq]
      exact ⟨by omega, by omega, trivial⟩
  · simp only [Bool.and_eq_true, decide_eq_true_eq] at hb3
    cases rest with
    | nil => cases h
    | cons c1 rest1 =>
      cases rest1 with
      | nil => cases h
      | cons c2 rest2 =>
        simp only at h
        split_ifs at h with hcc
        simp only [isCont, Bool.and_eq_true, decide_eq_true_eq] at hcc
        have hcb := cont1Ok_bounds hcc.1
        obtain ⟨hc1lo, hc1hi⟩ := hcc.2
        obtain ⟨rfl, rfl⟩ :
            Char.ofNat ((b - 224) * 4096 + (c1 - 128) * 64 + (c2 - 128)) = c ∧ rest2 = after := by
          cases h
          exact ⟨rfl, rfl⟩
        have hval : Nat.isValidChar ((b - 224) * 4096 + (c1 - 128) * 64 + (c2 - 128)) := by
          simp only [Nat.isValidChar]
          omega
        have ht := charToNat_ofNat hval
        rw [utf8EncodeChar, ht, if_neg (by omega), if_neg (by omega), if_pos (by omega)]
        simp only [List.cons_append, List.nil_append, List.cons.injEq]
        exact ⟨by omega, by omega, by omega, trivial⟩
  · simp only [Bool.and_eq_true, decide_eq_true_eq] at hb4
    cases rest with
    | nil => cases h
    | cons c1 rest1 =>
      cases rest1 with
      | nil => cases h
      | cons c2 rest2 =>
        cases rest2 with
        | nil => cases h
        | cons c3 rest3 =>
          simp only at h
          split_ifs at h with hcc
          simp only [isCont, Bool.and_eq_true, decide_eq_true_eq] at hcc
          obtain ⟨⟨hca, hc2lo, hc2hi⟩, hc3lo, hc3hi⟩ := hcc
          have hcb := cont1Ok_bounds hca
          obtain ⟨rfl, rfl⟩ :
              Char.ofNat ((b - 240) * 262144 + (c1 - 128) * 4096 + (c2 - 128) * 64 + (c3 - 128))
                = c ∧ rest3 = after := by
            cases h
            exact ⟨rfl, rfl⟩
          have hval : Nat.isValidChar
              ((b - 240) * 262144 + (c1 - 128) * 4096 + (c2 - 128) * 64 + (c3 - 128)) := by
            simp only [Nat.isValidChar]
            omega
          have ht := charToNat_ofNat hval
          rw [utf8EncodeChar, ht, if_neg (by omega), if_neg (by omega), if_neg (by omega)]
          simp only [List.cons_append, List.nil_append, List.cons.injEq]
          exact ⟨by omega, by omega, by omega, by omega, trivial⟩

/-- Every character the fuelled decoder emits comes from a canonical UTF-8
encoding present verbatim in the input. -/
theorem decodeGo_mem_encoded :
    ∀ fuel (bs : List Nat) (c : Char), c ∈ pyDecodeUtf8IgnoreGo fuel bs →
      ∃ pre post, bs = pre ++ utf8EncodeChar c ++ post := by
  intro fuel
  induction fuel with
  | zero =>
    intro bs c h
    simp [pyDecodeUtf8IgnoreGo] at h
  | succ f ih =>
    intro bs c h
    cases bs with
    | nil => simp [pyDecodeUtf8IgnoreGo] at h
    | cons b rest =>
      rw [pyDecodeUtf8IgnoreGo] at h
      cases hd : utf8DecodeAt b rest with
      | some pr =>
        obtain ⟨c0, after⟩ := pr
        rw [hd] at h
        have hbe : b :: rest = utf8EncodeChar c0 ++ after := utf8DecodeAt_encodes hd
        rcases List.mem_cons.mp h with hc | hc
        · exact ⟨[], after, by subst hc; simpa using hbe⟩
        · obtain ⟨pre, post, hp⟩ := ih after c hc
          exact ⟨utf8EncodeChar c0 ++ pre, post, by rw [hbe, hp]; simp [List.append_assoc]⟩
      | none =>
        rw [hd] at h
        obtain ⟨pre, post, hp⟩ := ih rest c h
        exact ⟨b :: pre, post, by rw [hp]; rfl⟩

/-- C9: the decoding step of `parse_jsonl` (UTF-8 with `errors="ignore"`) is
a total function — no byte input makes it raise — and undecodable bytes never
reach the text that is split into lines: every character of the decoded text
arises from a canonical UTF-8 encoding present verbatim in the input bytes. -/
theorem decode_ignore_only_valid (bs : List Nat) (c : Char)
    (h : c ∈ pyDecodeUtf8Ignore bs) :
    ∃ pre post, bs = pre ++ utf8EncodeChar c ++ post :=
  decodeGo_mem_encoded _ bs c h

/-- Witness for C9: decoding `h`, an invalid byte, `i` yields text whose
character `h` comes from a verbatim encoding in the input. -/
theorem decode_ignore_only_valid_witness :
    ∃ pre post, [104, 255, 105] = pre ++ utf8EncodeChar 'h' ++ post :=
  decode_ignore_only_valid [104, 255, 105] 'h' (by decide)

/-- A string is the string of its characters. -/
theorem stringMk_data (s : String) : String.mk s.data = s := by
  cases s
  rfl

/-- Character order is scalar-value order. -/
theorem charLe_iff (a b : Char) : a ≤ b ↔ a.toNat ≤ b.toNat := Iff.rfl

/-- Characters with different scalar values differ. -/
theorem charNe_of_toNat_ne {a b : Char} (h : a.toNat ≠ b.toNat) : a ≠ b :=
  fun hab => h (by rw [hab])

/-- Hexadecimal digits round-trip through rendering and reading. -/
theorem hexDigitVal_hexDigitStd {k : Nat} (hk : k < 16) : hexDigitVal (hexDigitStd k) = some k := by
  interval_cases k <;> decide

/-- An unescaped ordinary character is consumed by the string-body scanner. -/
theorem parseStringBody_cons_plain {c : Char} (h1 : c ≠ '"') (h2 : c ≠ '\\')
    (h3 : ¬ c.toNat < 32) (tail : PyStr) :
    parseStringBody (c :: tail) = Option.map (consFst c) (parseStringBody tail) := by
  rw [parseStringBody.eq_def]
  split
  · simp_all
  · simp_all
  · simp_all
  · rename_i cc tl hq hb heq
    obtain ⟨rfl, rfl⟩ : c = cc ∧ tail = tl := by
      exact ⟨(List.cons.injEq _ _ _ _ ▸ heq).1, (List.cons.injEq _ _ _ _ ▸ heq).2⟩
    rw [if_neg h3]

set_option maxHeartbeats 1600000 in
/-- The string-body scanner inverts the `json.dumps` string escaping. -/
theorem parseStringBody_escaped (cs : List Char) (rest : PyStr) :
    parseStringBody ((cs.map escapeJsonChar).flatten ++ '"' :: rest) = some (cs, rest) := by
  induction cs with
  | nil => rfl
  | cons c cst ih =>
    simp only [List.map_cons, List.flatten_cons, List.append_assoc]
    by_cases e1 : c = '"'
    · subst e1
      rw [show escapeJsonChar '"' = ['\\', '"'] from rfl]
      simp only [List.cons_append, List.nil_append, parseStringBody]
      simp only [show escMap '"' = some '"' from rfl, List.append_eq, List.nil_append]
      rw [ih]
      rfl
    · by_cases e2 : c = '\\'
      · subst e2
        rw [show escapeJsonChar '\\' = ['\\', '\\'] from rfl]
        simp only [List.cons_append, List.nil_append, parseStringBody]
        simp only [show escMap '\\' = some '\\' from rfl, List.append_eq, List.nil_append]
        rw [ih]
        rfl
      · by_cases e3 : c = '\n'
        · subst e3
          rw [show escapeJsonChar '\n' = ['\\', 'n'] from rfl]
          simp only [List.cons_append, List.nil_append, parseStringBody]
          simp only [show escMap 'n' = some '\n' from rfl, List.append_eq, List.nil_append]
          rw [ih]
          rfl
        · by_cases e4 : c = '\r'
          · subst e4
            rw [show escapeJsonChar '\r' = ['\\', 'r'] from rfl]
            simp only [List.cons_append, List.nil_append, parseStringBody]
            simp only [show escMap 'r' = some '\r' from rfl, List.append_eq, List.nil_append]
            rw [ih]
            rfl
          · by_cases e5 : c = '\t'
            · subst e5
              rw [show escapeJsonChar '\t' = ['\\', 't'] from rfl]
              simp only [List.cons_append, List.nil_append, parseStringBody]
              simp only [show escMap 't' = some '\t' from rfl, List.append_eq, List.nil_append]
              rw [ih]
              rfl
            · by_cases e6 : c.toNat = 8
              · have hc : c = Char.ofNat 8 := by
                  rw [← Char.ofNat_toNat c, e6]
                subst hc
                rw [show escapeJsonChar (Char.ofNat 8) = ['\\', 'b'] from rfl]
                simp only [List.cons_append, List.nil_append, parseStringBody]
                simp only [show escMap 'b' = some (Char.ofNat 8) from rfl, List.append_eq, List.nil_append]
                rw [ih]
                rfl
              · by_cases e7 : c.toNat = 12
                · have hc : c = Char.ofNat 12 := by
                    rw [← Char.ofNat_toNat c, e7]
                  subst hc
                  rw [show escapeJsonChar (Char.ofNat 12) = ['\\', 'f'] from rfl]
                  simp only [List.cons_append, List.nil_append, parseStringBody]
                  simp only [show escMap 'f' = some (Char.ofNat 12) from rfl, List.append_eq, List.nil_append]
                  rw [ih]
                  rfl
                · by_cases e8 : c.toNat < 32
                  · rw [show escapeJsonChar c
                        = ['\\', 'u', '0', '0', hexDigitStd (c.toNat / 16),
                            hexDigitStd (c.toNat % 16)] from by
                      rw [escapeJsonChar, if_neg e1, if_neg e2, if_neg e3, if_neg e4, if_neg e5,
                        if_neg e6, if_neg e7, if_pos e8]]
                    have hq : hexQuad '0' '0' (hexDigitStd (c.toNat / 16))
                        (hexDigitStd (c.toNat % 16)) = some c.toNat := by
                      rw [hexQuad,
                        show hexDigitVal '0' = some 0 from rfl,
                        hexDigitVal_hexDigitStd (show c.toNat / 16 < 16 by omega),
                        hexDigitVal_hexDigitStd (show c.toNat % 16 < 16 by omega)]
                      simp only [Option.bind_eq_bind, Option.some_bind]
                      exact congrArg some (by omega)
                    simp only [List.cons_append, List.nil_append, parseStringBody, hq]
                    rw [if_pos (by simp only [Bool.or_eq_true, decide_eq_true_eq]; omega)]
                    rw [Char.ofNat_toNat, ih]
                    rfl
                  · rw [show escapeJsonChar c = [c] from by
                      rw [escapeJsonChar, if_neg e1, if_neg e2, if_neg e3, if_neg e4, if_neg e5,
                        if_neg e6, if_neg e7, if_neg e8]]
                    simp only [List.cons_append, List.nil_append]
                    rw [parseStringBody_cons_plain e1 e2 e8, ih]
                    rfl

/-- The decimal renderer emits exactly the digit-value characters. -/
theorem natToDecGo_eq_map :
    ∀ fuel n, natToDecGo fuel n = (decDigits fuel n).map (fun d => Char.ofNat (48 + d)) := by
  intro fuel
  induction fuel with
  | zero => intro n; rfl
  | succ f ih =>
    intro n
    rw [natToDecGo, decDigits]
    by_cases h : n = 0
    · simp [h]
    · rw [if_neg h, if_neg h, ih (n / 10), List.map_append]
      rfl

/-- Digits of a decimal rendering are below ten. -/
theorem decDigits_lt10 :
    ∀ fuel n d, d ∈ decDigits fuel n → d < 10 := by
  intro fuel
  induction fuel with
  | zero => intro n d h; simp [decDigits] at h
  | succ f ih =>
    intro n d h
    rw [decDigits] at h
    by_cases hn : n = 0
    · simp [hn] at h
    · rw [if_neg hn] at h
      rcases List.mem_append.mp h with h2 | h2
      · exact ih _ _ h2
      · simp at h2
        omega

/-- Appending a digit multiplies the value by ten and adds it. -/
theorem digitsVal_append_singleton (ds : List Nat) (d : Nat) :
    digitsVal (ds ++ [d]) = 10 * digitsVal ds + d := by
  simp [digitsVal, List.foldl_append]

/-- Rendering zero gives no digits. -/
theorem decDigits_zero (fuel : Nat) : decDigits fuel 0 = [] := by
  cases fuel <;> simp [decDigits]

/-- The decimal digits evaluate back to the number. -/
theorem digitsVal_decDigits :
    ∀ fuel n, n ≤ fuel → digitsVal (decDigits fuel n) = n := by
  intro fuel
  induction fuel with
  | zero =>
    intro n h
    interval_cases n
    rfl
  | succ f ih =>
    intro n h
    rw [decDigits]
    by_cases hn : n = 0
    · simp [hn, digitsVal]
    · rw [if_neg hn, digitsVal_append_singleton, ih (n / 10) (by omega)]
      omega

/-- A nonzero number renders with a nonzero leading digit. -/
theorem decDigits_head_ne0 :
    ∀ fuel n, n ≠ 0 → n ≤ fuel → ∃ d0 ds, decDigits fuel n = d0 :: ds ∧ d0 ≠ 0 := by
  intro fuel
  induction fuel with
  | zero => intro n h1 h2; omega
  | succ f ih =>
    intro n h1 h2
    rw [decDigits, if_neg h1]
    by_cases hq : n / 10 = 0
    · rw [hq, decDigits_zero]
      exact ⟨n % 10, [], rfl, by omega⟩
    · obtain ⟨d0, ds, hds, hd0⟩ := ih (n / 10) hq (by omega)
      exact ⟨d0, ds ++ [n % 10], by rw [hds]; rfl, hd0⟩

/-- Digit characters test as digits. -/
theorem isDigitCh_ofDigit {d : Nat} (hd : d < 10) :
    isDigitCh (Char.ofNat (48 + d)) = true := by
  have ht : (Char.ofNat (48 + d)).toNat = 48 + d := charToNat_ofNat (Or.inl (by omega))
  simp only [isDigitCh, Bool.and_eq_true, decide_eq_true_eq, charLe_iff, ht]
  have h0 : ('0').toNat = 48 := rfl
  have h9 : ('9').toNat = 57 := rfl
  omega

/-- The digit-run scanner consumes exactly a rendered digit block when a
comma follows. -/
theorem digitRun_map_digits :
    ∀ ds : List Nat, (∀ d ∈ ds, d < 10) → ∀ r2 : PyStr,
      digitRun ((ds.map (fun d => Char.ofNat (48 + d))) ++ ',' :: r2) = (ds, ',' :: r2) := by
  intro ds
  induction ds with
  | nil => intro h r2; rfl
  | cons d dst ih =>
    intro h r2
    have hd : d < 10 := h d (by simp)
    have ht : (Char.ofNat (48 + d)).toNat = 48 + d := charToNat_ofNat (Or.inl (by omega))
    simp only [List.map_cons, List.cons_append, digitRun, isDigitCh_ofDigit hd, if_pos,
      List.append_eq]
    rw [ih (fun x hx => h x (by simp [hx])) r2, ht]
    simp

/-- The integer-part scanner on a nonzero leading digit takes the maximal
digit run. -/
theorem parseIntPart_cons_nonzero {c : Char} (h0 : c ≠ '0') (hd : isDigitCh c = true)
    (tail : PyStr) :
    parseIntPart (c :: tail) = some ((c.toNat - 48) :: (digitRun tail).1, (digitRun tail).2) := by
  rw [parseIntPart.eq_def]
  split
  · simp_all
  · rename_i cc tl hq heq
    obtain ⟨rfl, rfl⟩ : c = cc ∧ tail = tl :=
      ⟨(List.cons.injEq _ _ _ _ ▸ heq).1, (List.cons.injEq _ _ _ _ ▸ heq).2⟩
    rw [if_pos hd]
  · simp_all

/-- The number scanner reads back a rendered natural number followed by a
comma. -/
theorem parseNumber_natToDec (n : Nat) (r : PyStr) :
    parseNumber (natToDec n ++ ',' :: r) = some (Json.num (Int.ofNat n), ',' :: r) := by
  by_cases hn : n = 0
  · subst hn
    rfl
  · obtain ⟨d0, ds, hds, hd0⟩ := decDigits_head_ne0 (n + 1) n hn (by omega)
    have hlt := fun d hd => decDigits_lt10 (n + 1) n d hd
    have hd0lt : d0 < 10 := hlt d0 (by rw [hds]; simp)
    have hdslt : ∀ d ∈ ds, d < 10 := fun d hd => hlt d (by rw [hds]; simp [hd])
    have ht : (Char.ofNat (48 + d0)).toNat = 48 + d0 := charToNat_ofNat (Or.inl (by omega))
    have hmap : natToDec n
        = Char.ofNat (48 + d0) :: (ds.map (fun d => Char.ofNat (48 + d))) := by
      rw [natToDec, if_neg hn, natToDecGo_eq_map, hds]
      rfl
    have hne : Char.ofNat (48 + d0) ≠ '-' := by
      apply charNe_of_toNat_ne
      rw [ht]
      have h45 : ('-').toNat = 45 := rfl
      omega
    have hbody : parseIntPart
        (Char.ofNat (48 + d0) :: (ds.map (fun d => Char.ofNat (48 + d)) ++ ',' :: r))
        = some (d0 :: ds, ',' :: r) := by
      rw [parseIntPart_cons_nonzero
        (by
          apply charNe_of_toNat_ne
          rw [ht]
          have h48 : ('0').toNat = 48 := rfl
          omega)
        (isDigitCh_ofDigit hd0lt)]
      rw [digitRun_map_digits ds hdslt r, ht]
      simp
    have hval : digitsVal (d0 :: ds) = n := by
      rw [← hds]
      exact digitsVal_decDigits (n + 1) n (by omega)
    rw [parseNumber, hmap]
    simp only [List.cons_append, List.head?_cons]
    have hnegif : (if some (Char.ofNat (48 + d0)) = some '-' then true else false) = false :=
      if_neg (fun hcon => hne (Option.some.inj hcon))
    simp only [hnegif, Bool.false_eq_true, if_false]
    simp only [Option.bind_eq_bind, hbody, Option.some_bind,
      show parseFrac (',' :: r) = some ([], ',' :: r) from rfl,
      show parseExp (',' :: r) = some (none, ',' :: r) from rfl]
    simp [hval]

/-- The value scanner on a quote delegates to the string-body scanner and
yields the unescaped string. -/
theorem parseGo_value_str (f : Nat) (s : String) (rest : PyStr) :
    parseGo (f + 1) .value (encodeJsonString s ++ rest) = some (Json.str s, rest) := by
  rw [show encodeJsonString s ++ rest
      = '"' :: ((s.data.map escapeJsonChar).flatten ++ '"' :: rest) from by
    simp [encodeJsonString, List.append_assoc]]
  simp only [parseGo]
  rw [if_neg (show ¬ ('"' = '\x7b') by decide), if_neg (show ¬ ('"' = '[') by decide),
    if_pos (trivial : True), parseStringBody_escaped]
  simp [stringMk_data]

/-- The value scanner on a digit delegates to the number scanner. -/
theorem parseGo_value_digitHead {c : Char} (hd : isDigitCh c = true) (f : Nat) (tail : PyStr) :
    parseGo (f + 1) .value (c :: tail) = parseNumber (c :: tail) := by
  have hb : ('0').toNat ≤ c.toNat ∧ c.toNat ≤ ('9').toNat := by
    simpa [isDigitCh, charLe_iff, Bool.and_eq_true, decide_eq_true_eq] using hd
  have h48 : ('0').toNat = 48 := rfl
  have h57 : ('9').toNat = 57 := rfl
  simp only [parseGo]
  rw [if_neg (show ¬ (c = '\x7b') by
      apply charNe_of_toNat_ne; have h2 : ('\x7b').toNat = 123 := rfl; omega),
    if_neg (show ¬ (c = '[') by
      apply charNe_of_toNat_ne; have h2 : ('[').toNat = 91 := rfl; omega),
    if_neg (show ¬ (c = '"') by
      apply charNe_of_toNat_ne; have h2 : ('"').toNat = 34 := rfl; omega),
    if_neg (show ¬ (c = 't') by
      apply charNe_of_toNat_ne; have h2 : ('t').toNat = 116 := rfl; omega),
    if_neg (show ¬ (c = 'f') by
      apply charNe_of_toNat_ne; have h2 : ('f').toNat = 102 := rfl; omega),
    if_neg (show ¬ (c = 'n') by
      apply charNe_of_toNat_ne; have h2 : ('n').toNat = 110 := rfl; omega),
    if_neg (show ¬ (c = 'N') by
      apply charNe_of_toNat_ne; have h2 : ('N').toNat = 78 := rfl; omega),
    if_neg (show ¬ (c = 'I') by
      apply charNe_of_toNat_ne; have h2 : ('I').toNat = 73 := rfl; omega),
    if_neg (show ¬ (c = '-') by
      apply charNe_of_toNat_ne; have h2 : ('-').toNat = 45 := rfl; omega),
    if_pos hd]

/-- A rendered number starts with a digit character. -/
theorem natToDec_head_digit (n : Nat) :
    ∃ c tl, natToDec n = c :: tl ∧ isDigitCh c = true := by
  by_cases hn : n = 0
  · exact ⟨'0', [], by rw [hn]; rfl, by decide⟩
  · obtain ⟨d0, ds, hds, hd0⟩ := decDigits_head_ne0 (n + 1) n hn (by omega)
    have hd0lt : d0 < 10 := decDigits_lt10 _ _ _ (by rw [hds]; simp)
    refine ⟨Char.ofNat (48 + d0), ds.map (fun d => Char.ofNat (48 + d)), ?_,
      isDigitCh_ofDigit hd0lt⟩
    rw [natToDec, if_neg hn, natToDecGo_eq_map, hds]
    rfl

/-- The value scanner reads back a rendered number followed by a comma. -/
theorem parseGo_value_num (f : Nat) (n : Nat) (r : PyStr) :
    parseGo (f + 1) .value (natToDec n ++ ',' :: r)
      = some (Json.num (Int.ofNat n), ',' :: r) := by
  obtain ⟨c, tl, hct, hdig⟩ := natToDec_head_digit n
  rw [hct, List.cons_append, parseGo_value_digitHead hdig, ← List.cons_append, ← hct]
  exact parseNumber_natToDec n r

/-- Whitespace skipping does nothing on a non-whitespace head. -/
theorem skipJsonWs_cons_of {c : Char}
    (h : (c == ' ' || c == '\t' || c == '\n' || c == '\r') = false) (tl : PyStr) :
    skipJsonWs (c :: tl) = c :: tl := by
  simp [skipJsonWs, List.dropWhile_cons, h]

/-- Whitespace skipping drops a leading space. -/
theorem skipJsonWs_space (tl : PyStr) : skipJsonWs (' ' :: tl) = skipJsonWs tl := by
  simp [skipJsonWs, List.dropWhile_cons]

/-- Whitespace skipping does nothing before a rendered string. -/
theorem skipJsonWs_encStr (s : String) (x : PyStr) :
    skipJsonWs (encodeJsonString s ++ x) = encodeJsonString s ++ x := by
  rw [show encodeJsonString s ++ x
      = '"' :: ((s.data.map escapeJsonChar).flatten ++ '"' :: x) from by
    simp [encodeJsonString, List.append_assoc]]
  exact skipJsonWs_cons_of (by decide) _

/-- Whitespace skipping does nothing before a rendered number. -/
theorem skipJsonWs_natToDec (n : Nat) (x : PyStr) :
    skipJsonWs (natToDec n ++ x) = natToDec n ++ x := by
  obtain ⟨c, tl, hct, hdig⟩ := natToDec_head_digit n
  have hb : ('0').toNat ≤ c.toNat ∧ c.toNat ≤ ('9').toNat := by
    simpa [isDigitCh, charLe_iff, Bool.and_eq_true, decide_eq_true_eq] using hdig
  have h48 : ('0').toNat = 48 := rfl
  have h57 : ('9').toNat = 57 := rfl
  rw [hct, List.cons_append]
  refine skipJsonWs_cons_of ?_ _
  simp only [Bool.or_eq_false_iff, beq_eq_false_iff_ne]
  have hsp : (' ').toNat = 32 := rfl
  have hta : ('\t').toNat = 9 := rfl
  have hnl : ('\n').toNat = 10 := rfl
  have hcr : ('\r').toNat = 13 := rfl
  refine ⟨⟨⟨?_, ?_⟩, ?_⟩, ?_⟩ <;> (apply charNe_of_toNat_ne; omega)

/-- Single step of the member loop on a quote-headed input, written out. -/
theorem parseGo_members_step (fuel : Nat) (acc : List (String × Json)) (rest : PyStr) :
    parseGo (fuel + 1) (.members acc) ('"' :: rest)
      = (parseStringBody rest).bind (fun p =>
          match skipJsonWs p.2 with
          | ':' :: r2 =>
            (parseGo fuel .value (skipJsonWs r2)).bind (fun q =>
              match skipJsonWs q.2 with
              | ',' :: r4 =>
                parseGo fuel (.members (acc ++ [(String.mk p.1, q.1)])) (skipJsonWs r4)
              | '\x7d' :: r4 =>
                some (Json.obj (buildDict (acc ++ [(String.mk p.1, q.1)])), r4)
              | _ => none)
          | _ => none) := rfl

/-- One member of an object, followed by a comma: the member loop records the
pair and continues after the comma-space separator. -/
theorem parseGo_member_cont (F : Nat) (acc : List (String × Json)) (k : String) (v : Json)
    (vchunk after2 : PyStr)
    (hv : parseGo (F + 1) .value (vchunk ++ ',' :: ' ' :: after2) = some (v, ',' :: ' ' :: after2))
    (hwv : skipJsonWs (vchunk ++ ',' :: ' ' :: after2) = vchunk ++ ',' :: ' ' :: after2)
    (hwa : skipJsonWs after2 = after2) :
    parseGo (F + 2) (.members acc)
        ((encodeJsonString k ++ ':' :: ' ' :: vchunk) ++ ',' :: ' ' :: after2)
      = parseGo (F + 1) (.members (acc ++ [(k, v)])) after2 := by
  rw [show (encodeJsonString k ++ ':' :: ' ' :: vchunk) ++ ',' :: ' ' :: after2
      = '"' :: ((k.data.map escapeJsonChar).flatten ++
          '"' :: ':' :: ' ' :: (vchunk ++ ',' :: ' ' :: after2)) from by
    simp [encodeJsonString, List.append_assoc]]
  rw [parseGo_members_step, parseStringBody_escaped, Option.some_bind]
  simp only []
  rw [skipJsonWs_cons_of (by decide)]
  simp only []
  rw [skipJsonWs_space, hwv, hv, Option.some_bind]
  simp only []
  rw [skipJsonWs_cons_of (by decide)]
  simp only []
  rw [skipJsonWs_space, hwa, stringMk_data]

/-- The final member of an object, followed by the closing brace: the member
loop returns the finished object. -/
theorem parseGo_member_last (F : Nat) (acc : List (String × Json)) (k : String) (v : Json)
    (vchunk post : PyStr)
    (hv : parseGo (F + 1) .value (vchunk ++ '\x7d' :: post) = some (v, '\x7d' :: post))
    (hwv : skipJsonWs (vchunk ++ '\x7d' :: post) = vchunk ++ '\x7d' :: post) :
    parseGo (F + 2) (.members acc)
        ((encodeJsonString k ++ ':' :: ' ' :: vchunk) ++ '\x7d' :: post)
      = some (Json.obj (buildDict (acc ++ [(k, v)])), post) := by
  rw [show (encodeJsonString k ++ ':' :: ' ' :: vchunk) ++ '\x7d' :: post
      = '"' :: ((k.data.map escapeJsonChar).flatten ++
          '"' :: ':' :: ' ' :: (vchunk ++ '\x7d' :: post)) from by
    simp [encodeJsonString, List.append_assoc]]
  rw [parseGo_members_step, parseStringBody_escaped, Option.some_bind]
  simp only []
  rw [skipJsonWs_cons_of (by decide)]
  simp only []
  rw [skipJsonWs_space, hwv, hv, Option.some_bind]
  simp only []
  rw [skipJsonWs_cons_of (by decide)]
  simp only [stringMk_data]

/-- A braced object whose body starts with a rendered key goes to the member
loop with an empty accumulator. -/
theorem parseGo_value_obj (fuel : Nat) (s : String) (x : PyStr) :
    parseGo (fuel + 1) .value ('\x7b' :: (encodeJsonString s ++ x))
      = parseGo fuel (.members []) (encodeJsonString s ++ x) := by
  simp only [parseGo]
  rw [if_pos (trivial : True), skipJsonWs_encStr]
  rw [show encodeJsonString s ++ x
      = '"' :: ((s.data.map escapeJsonChar).flatten ++ ('"' :: x)) from by
    simp [encodeJsonString, List.append_assoc]]
  rfl

/-- The scanner reads back a serialised evidence record exactly, leaving the
remainder of the input untouched: nine units of fuel always suffice. -/
theorem parseGo_dumpsRecord (f : Nat) (r : EvidenceRecord) (rest : PyStr) :
    parseGo (f + 9) .value (dumpsRecord r ++ rest) = some (recordToJson r, rest) := by
  rw [show dumpsRecord r ++ rest = '\x7b' :: (encodeJsonString "schema" ++ (':' :: (' ' :: (encodeJsonString r.schema ++ (',' :: (' ' :: (encodeJsonString "filename" ++ (':' :: (' ' :: (encodeJsonString r.filename ++ (',' :: (' ' :: (encodeJsonString "size_bytes" ++ (':' :: (' ' :: (natToDec r.size_bytes ++ (',' :: (' ' :: (encodeJsonString "sha256" ++ (':' :: (' ' :: (encodeJsonString r.sha256 ++ (',' :: (' ' :: (encodeJsonString "sha512" ++ (':' :: (' ' :: (encodeJsonString r.sha512 ++ (',' :: (' ' :: (encodeJsonString "computed_at_utc" ++ (':' :: (' ' :: (encodeJsonString r.computed_at_utc ++ (',' :: (' ' :: (encodeJsonString "notes" ++ (':' :: (' ' :: (encodeJsonString r.notes ++ ('\x7d' :: rest))))))))))))))))))))))))))))))))))))))))) from by
    simp [dumpsRecord, List.append_assoc]]
  have h0 : parseGo (f + 9) .value ('\x7b' :: (encodeJsonString "schema" ++ (':' :: (' ' :: (encodeJsonString r.schema ++ (',' :: (' ' :: (encodeJsonString "filename" ++ (':' :: (' ' :: (encodeJsonString r.filename ++ (',' :: (' ' :: (encodeJsonString "size_bytes" ++ (':' :: (' ' :: (natToDec r.size_bytes ++ (',' :: (' ' :: (encodeJsonString "sha256" ++ (':' :: (' ' :: (encodeJsonString r.sha256 ++ (',' :: (' ' :: (encodeJsonString "sha512" ++ (':' :: (' ' :: (encodeJsonString r.sha512 ++ (',' :: (' ' :: (encodeJsonString "computed_at_utc" ++ (':' :: (' ' :: (encodeJsonString r.computed_at_utc ++ (',' :: (' ' :: (encodeJsonString "notes" ++ (':' :: (' ' :: (encodeJsonString r.notes ++ ('\x7d' :: rest))))))))))))))))))))))))))))))))))))))))))
      = parseGo (f + 8) (.members []) (encodeJsonString "schema" ++ (':' :: (' ' :: (encodeJsonString r.schema ++ (',' :: (' ' :: (encodeJsonString "filename" ++ (':' :: (' ' :: (encodeJsonString r.filename ++ (',' :: (' ' :: (encodeJsonString "size_bytes" ++ (':' :: (' ' :: (natToDec r.size_bytes ++ (',' :: (' ' :: (encodeJsonString "sha256" ++ (':' :: (' ' :: (encodeJsonString r.sha256 ++ (',' :: (' ' :: (encodeJsonString "sha512" ++ (':' :: (' ' :: (encodeJsonString r.sha512 ++ (',' :: (' ' :: (encodeJsonString "computed_at_utc" ++ (':' :: (' ' :: (encodeJsonString r.computed_at_utc ++ (',' :: (' ' :: (encodeJsonString "notes" ++ (':' :: (' ' :: (encodeJsonString r.notes ++ ('\x7d' :: rest))))))))))))))))))))))))))))))))))))))))) :=
    parseGo_value_obj (f + 8) "schema" _
  have h1 : parseGo (f + 8) (.members []) (encodeJsonString "schema" ++ (':' :: (' ' :: (encodeJsonString r.schema ++ (',' :: (' ' :: (encodeJsonString "filename" ++ (':' :: (' ' :: (encodeJsonString r.filename ++ (',' :: (' ' :: (encodeJsonString "size_bytes" ++ (':' :: (' ' :: (natToDec r.size_bytes ++ (',' :: (' ' :: (encodeJsonString "sha256" ++ (':' :: (' ' :: (encodeJsonString r.sha256 ++ (',' :: (' ' :: (encodeJsonString "sha512" ++ (':' :: (' ' :: (encodeJsonString r.sha512 ++ (',' :: (' ' :: (encodeJsonString "computed_at_utc" ++ (':' :: (' ' :: (encodeJsonString r.computed_at_utc ++ (',' :: (' ' :: (encodeJsonString "notes" ++ (':' :: (' ' :: (encodeJsonString r.notes ++ ('\x7d' :: rest)))))))))))))))))))))))))))))))))))))))))
      = parseGo (f + 7) (.members [("schema", Json.str r.schema)]) (encodeJsonString "filename" ++ (':' :: (' ' :: (encodeJsonString r.filename ++ (',' :: (' ' :: (encodeJsonString "size_bytes" ++ (':' :: (' ' :: (natToDec r.size_bytes ++ (',' :: (' ' :: (encodeJsonString "sha256" ++ (':' :: (' ' :: (encodeJsonString r.sha256 ++ (',' :: (' ' :: (encodeJsonString "sha512" ++ (':' :: (' ' :: (encodeJsonString r.sha512 ++ (',' :: (' ' :: (encodeJsonString "computed_at_utc" ++ (':' :: (' ' :: (encodeJsonString r.computed_at_utc ++ (',' :: (' ' :: (encodeJsonString "notes" ++ (':' :: (' ' :: (encodeJsonString r.notes ++ ('\x7d' :: rest))))))))))))))))))))))))))))))))))) := by
    rw [show (encodeJsonString "schema" ++ (':' :: (' ' :: (encodeJsonString r.schema ++ (',' :: (' ' :: (encodeJsonString "filename" ++ (':' :: (' ' :: (encodeJsonString r.filename ++ (',' :: (' ' :: (encodeJsonString "size_bytes" ++ (':' :: (' ' :: (natToDec r.size_bytes ++ (',' :: (' ' :: (encodeJsonString "sha256" ++ (':' :: (' ' :: (encodeJsonString r.sha256 ++ (',' :: (' ' :: (encodeJsonString "sha512" ++ (':' :: (' ' :: (encodeJsonString r.sha512 ++ (',' :: (' ' :: (encodeJsonString "computed_at_utc" ++ (':' :: (' ' :: (encodeJsonString r.computed_at_utc ++ (',' :: (' ' :: (encodeJsonString "notes" ++ (':' :: (' ' :: (encodeJsonString r.notes ++ ('\x7d' :: rest)))))))))))))))))))))))))))))))))))))))))
        = (encodeJsonString "schema" ++ (':' :: (' ' :: (encodeJsonString r.schema)))) ++ (',' :: (' ' :: (encodeJsonString "filename" ++ (':' :: (' ' :: (encodeJsonString r.filename ++ (',' :: (' ' :: (encodeJsonString "size_bytes" ++ (':' :: (' ' :: (natToDec r.size_bytes ++ (',' :: (' ' :: (encodeJsonString "sha256" ++ (':' :: (' ' :: (encodeJsonString r.sha256 ++ (',' :: (' ' :: (encodeJsonString "sha512" ++ (':' :: (' ' :: (encodeJsonString r.sha512 ++ (',' :: (' ' :: (encodeJsonString "computed_at_utc" ++ (':' :: (' ' :: (encodeJsonString r.computed_at_utc ++ (',' :: (' ' :: (encodeJsonString "notes" ++ (':' :: (' ' :: (encodeJsonString r.notes ++ ('\x7d' :: rest))))))))))))))))))))))))))))))))))))) from by
      simp [List.append_assoc]]
    exact parseGo_member_cont (f + 6) [] "schema" (Json.str r.schema) (encodeJsonString r.schema) (encodeJsonString "filename" ++ (':' :: (' ' :: (encodeJsonString r.filename ++ (',' :: (' ' :: (encodeJsonString "size_bytes" ++ (':' :: (' ' :: (natToDec r.size_bytes ++ (',' :: (' ' :: (encodeJsonString "sha256" ++ (':' :: (' ' :: (encodeJsonString r.sha256 ++ (',' :: (' ' :: (encodeJsonString "sha512" ++ (':' :: (' ' :: (encodeJsonString r.sha512 ++ (',' :: (' ' :: (encodeJsonString "computed_at_utc" ++ (':' :: (' ' :: (encodeJsonString r.computed_at_utc ++ (',' :: (' ' :: (encodeJsonString "notes" ++ (':' :: (' ' :: (encodeJsonString r.notes ++ ('\x7d' :: rest)))))))))))))))))))))))))))))))))))
      (parseGo_value_str _ _ _) (skipJsonWs_encStr _ _) (skipJsonWs_encStr _ _)
  have h2 : parseGo (f + 7) (.members [("schema", Json.str r.schema)]) (encodeJsonString "filename" ++ (':' :: (' ' :: (encodeJsonString r.filename ++ (',' :: (' ' :: (encodeJsonString "size_bytes" ++ (':' :: (' ' :: (natToDec r.size_bytes ++ (',' :: (' ' :: (encodeJsonString "sha256" ++ (':' :: (' ' :: (encodeJsonString r.sha256 ++ (',' :: (' ' :: (encodeJsonString "sha512" ++ (':' :: (' ' :: (encodeJsonString r.sha512 ++ (',' :: (' ' :: (encodeJsonString "computed_at_utc" ++ (':' :: (' ' :: (encodeJsonString r.computed_at_utc ++ (',' :: (' ' :: (encodeJsonString "notes" ++ (':' :: (' ' :: (encodeJsonString r.notes ++ ('\x7d' :: rest)))))))))))))))))))))))))))))))))))
      = parseGo (f + 6) (.members [("schema", Json.str r.schema), ("filename", Json.str r.filename)]) (encodeJsonString "size_bytes" ++ (':' :: (' ' :: (natToDec r.size_bytes ++ (',' :: (' ' :: (encodeJsonString "sha256" ++ (':' :: (' ' :: (encodeJsonString r.sha256 ++ (',' :: (' ' :: (encodeJsonString "sha512" ++ (':' :: (' ' :: (encodeJsonString r.sha512 ++ (',' :: (' ' :: (encodeJsonString "computed_at_utc" ++ (':' :: (' ' :: (encodeJsonString r.computed_at_utc ++ (',' :: (' ' :: (encodeJsonString "notes" ++ (':' :: (' ' :: (encodeJsonString r.notes ++ ('\x7d' :: rest))))))))))))))))))))))))))))) := by
    rw [show (encodeJsonString "filename" ++ (':' :: (' ' :: (encodeJsonString r.filename ++ (',' :: (' ' :: (encodeJsonString "size_bytes" ++ (':' :: (' ' :: (natToDec r.size_bytes ++ (',' :: (' ' :: (encodeJsonString "sha256" ++ (':' :: (' ' :: (encodeJsonString r.sha256 ++ (',' :: (' ' :: (encodeJsonString "sha512" ++ (':' :: (' ' :: (encodeJsonString r.sha512 ++ (',' :: (' ' :: (encodeJsonString "computed_at_utc" ++ (':' :: (' ' :: (encodeJsonString r.computed_at_utc ++ (',' :: (' ' :: (encodeJsonString "notes" ++ (':' :: (' ' :: (encodeJsonString r.notes ++ ('\x7d' :: rest)))))))))))))))))))))))))))))))))))
        = (encodeJsonString "filename" ++ (':' :: (' ' :: (encodeJsonString r.filename)))) ++ (',' :: (' ' :: (encodeJsonString "size_bytes" ++ (':' :: (' ' :: (natToDec r.size_bytes ++ (',' :: (' ' :: (encodeJsonString "sha256" ++ (':' :: (' ' :: (encodeJsonString r.sha256 ++ (',' :: (' ' :: (encodeJsonString "sha512" ++ (':' :: (' ' :: (encodeJsonString r.sha512 ++ (',' :: (' ' :: (encodeJsonString "computed_at_utc" ++ (':' :: (' ' :: (encodeJsonString r.computed_at_utc ++ (',' :: (' ' :: (encodeJsonString "notes" ++ (':' :: (' ' :: (encodeJsonString r.notes ++ ('\x7d' :: rest))))))))))))))))))))))))))))))) from by
      simp [List.append_assoc]]
    exact parseGo_member_cont (f + 5) [("schema", Json.str r.schema)] "filename" (Json.str r.filename) (encodeJsonString r.filename) (encodeJsonString "size_bytes" ++ (':' :: (' ' :: (natToDec r.size_bytes ++ (',' :: (' ' :: (encodeJsonString "sha256" ++ (':' :: (' ' :: (encodeJsonString r.sha256 ++ (',' :: (' ' :: (encodeJsonString "sha512" ++ (':' :: (' ' :: (encodeJsonString r.sha512 ++ (',' :: (' ' :: (encodeJsonString "computed_at_utc" ++ (':' :: (' ' :: (encodeJsonString r.computed_at_utc ++ (',' :: (' ' :: (encodeJsonString "notes" ++ (':' :: (' ' :: (encodeJsonString r.notes ++ ('\x7d' :: rest)))))))))))))))))))))))))))))
      (parseGo_value_str _ _ _) (skipJsonWs_encStr _ _) (skipJsonWs_encStr _ _)
  have h3 : parseGo (f + 6) (.members [("schema", Json.str r.schema), ("filename", Json.str r.filename)]) (encodeJsonString "size_bytes" ++ (':' :: (' ' :: (natToDec r.size_bytes ++ (',' :: (' ' :: (encodeJsonString "sha256" ++ (':' :: (' ' :: (encodeJsonString r.sha256 ++ (',' :: (' ' :: (encodeJsonString "sha512" ++ (':' :: (' ' :: (encodeJsonString r.sha512 ++ (',' :: (' ' :: (encodeJsonString "computed_at_utc" ++ (':' :: (' ' :: (encodeJsonString r.computed_at_utc ++ (',' :: (' ' :: (encodeJsonString "notes" ++ (':' :: (' ' :: (encodeJsonString r.notes ++ ('\x7d' :: rest)))))))))))))))))))))))))))))
      = parseGo (f + 5) (.members [("schema", Json.str r.schema), ("filename", Json.str r.filename), ("size_bytes", Json.num (Int.ofNat r.size_bytes))]) (encodeJsonString "sha256" ++ (':' :: (' ' :: (encodeJsonString r.sha256 ++ (',' :: (' ' :: (encodeJsonString "sha512" ++ (':' :: (' ' :: (encodeJsonString r.sha512 ++ (',' :: (' ' :: (encodeJsonString "computed_at_utc" ++ (':' :: (' ' :: (encodeJsonString r.computed_at_utc ++ (',' :: (' ' :: (encodeJsonString "notes" ++ (':' :: (' ' :: (encodeJsonString r.notes ++ ('\x7d' :: rest))))))))))))))))))))))) := by
    rw [show (encodeJsonString "size_bytes" ++ (':' :: (' ' :: (natToDec r.size_bytes ++ (',' :: (' ' :: (encodeJsonString "sha256" ++ (':' :: (' ' :: (encodeJsonString r.sha256 ++ (',' :: (' ' :: (encodeJsonString "sha512" ++ (':' :: (' ' :: (encodeJsonString r.sha512 ++ (',' :: (' ' :: (encodeJsonString "computed_at_utc" ++ (':' :: (' ' :: (encodeJsonString r.computed_at_utc ++ (',' :: (' ' :: (encodeJsonString "notes" ++ (':' :: (' ' :: (encodeJsonString r.notes ++ ('\x7d' :: rest)))))))))))))))))))))))))))))
        = (encodeJsonString "size_bytes" ++ (':' :: (' ' :: (natToDec r.size_bytes)))) ++ (',' :: (' ' :: (encodeJsonString "sha256" ++ (':' :: (' ' :: (encodeJsonString r.sha256 ++ (',' :: (' ' :: (encodeJsonString "sha512" ++ (':' :: (' ' :: (encodeJsonString r.sha512 ++ (',' :: (' ' :: (encodeJsonString "computed_at_utc" ++ (':' :: (' ' :: (encodeJsonString r.computed_at_utc ++ (',' :: (' ' :: (encodeJsonString "notes" ++ (':' :: (' ' :: (encodeJsonString r.notes ++ ('\x7d' :: rest))))))))))))))))))))))))) from by
      simp [List.append_assoc]]
    exact parseGo_member_cont (f + 4) [("schema", Json.str r.schema), ("filename", Json.str r.filename)] "size_bytes" (Json.num (Int.ofNat r.size_bytes)) (natToDec r.size_bytes) (encodeJsonString "sha256" ++ (':' :: (' ' :: (encodeJsonString r.sha256 ++ (',' :: (' ' :: (encodeJsonString "sha512" ++ (':' :: (' ' :: (encodeJsonString r.sha512 ++ (',' :: (' ' :: (encodeJsonString "computed_at_utc" ++ (':' :: (' ' :: (encodeJsonString r.computed_at_utc ++ (',' :: (' ' :: (encodeJsonString "notes" ++ (':' :: (' ' :: (encodeJsonString r.notes ++ ('\x7d' :: rest)))))))))))))))))))))))
      (parseGo_value_num _ _ _) (skipJsonWs_natToDec _ _) (skipJsonWs_encStr _ _)
  have h4 : parseGo (f + 5) (.members [("schema", Json.str r.schema), ("filename", Json.str r.filename), ("size_bytes", Json.num (Int.ofNat r.size_bytes))]) (encodeJsonString "sha256" ++ (':' :: (' ' :: (encodeJsonString r.sha256 ++ (',' :: (' ' :: (encodeJsonString "sha512" ++ (':' :: (' ' :: (encodeJsonString r.sha512 ++ (',' :: (' ' :: (encodeJsonString "computed_at_utc" ++ (':' :: (' ' :: (encodeJsonString r.computed_at_utc ++ (',' :: (' ' :: (encodeJsonString "notes" ++ (':' :: (' ' :: (encodeJsonString r.notes ++ ('\x7d' :: rest)))))))))))))))))))))))
      = parseGo (f + 4) (.members [("schema", Json.str r.schema), ("filename", Json.str r.filename), ("size_bytes", Json.num (Int.ofNat r.size_bytes)), ("sha256", Json.str r.sha256)]) (encodeJsonString "sha512" ++ (':' :: (' ' :: (encodeJsonString r.sha512 ++ (',' :: (' ' :: (encodeJsonString "computed_at_utc" ++ (':' :: (' ' :: (encodeJsonString r.computed_at_utc ++ (',' :: (' ' :: (encodeJsonString "notes" ++ (':' :: (' ' :: (encodeJsonString r.notes ++ ('\x7d' :: rest))))))))))))))))) := by
    rw [show (encodeJsonString "sha256" ++ (':' :: (' ' :: (encodeJsonString r.sha256 ++ (',' :: (' ' :: (encodeJsonString "sha512" ++ (':' :: (' ' :: (encodeJsonString r.sha512 ++ (',' :: (' ' :: (encodeJsonString "computed_at_utc" ++ (':' :: (' ' :: (encodeJsonString r.computed_at_utc ++ (',' :: (' ' :: (encodeJsonString "notes" ++ (':' :: (' ' :: (encodeJsonString r.notes ++ ('\x7d' :: rest)))))))))))))))))))))))
        = (encodeJsonString "sha256" ++ (':' :: (' ' :: (encodeJsonString r.sha256)))) ++ (',' :: (' ' :: (encodeJsonString "sha512" ++ (':' :: (' ' :: (encodeJsonString r.sha512 ++ (',' :: (' ' :: (encodeJsonString "computed_at_utc" ++ (':' :: (' ' :: (encodeJsonString r.computed_at_utc ++ (',' :: (' ' :: (encodeJsonString "notes" ++ (':' :: (' ' :: (encodeJsonString r.notes ++ ('\x7d' :: rest))))))))))))))))))) from by
      simp [List.append_assoc]]
    exact parseGo_member_cont (f + 3) [("schema", Json.str r.schema), ("filename", Json.str r.filename), ("size_bytes", Json.num (Int.ofNat r.size_bytes))] "sha256" (Json.str r.sha256) (encodeJsonString r.sha256) (encodeJsonString "sha512" ++ (':' :: (' ' :: (encodeJsonString r.sha512 ++ (',' :: (' ' :: (encodeJsonString "computed_at_utc" ++ (':' :: (' ' :: (encodeJsonString r.computed_at_utc ++ (',' :: (' ' :: (encodeJsonString "notes" ++ (':' :: (' ' :: (encodeJsonString r.notes ++ ('\x7d' :: rest)))))))))))))))))
      (parseGo_value_str _ _ _) (skipJsonWs_encStr _ _) (skipJsonWs_encStr _ _)
  have h5 : parseGo (f + 4) (.members [("schema", Json.str r.schema), ("filename", Json.str r.filename), ("size_bytes", Json.num (Int.ofNat r.size_bytes)), ("sha256", Json.str r.sha256)]) (encodeJsonString "sha512" ++ (':' :: (' ' :: (encodeJsonString r.sha512 ++ (',' :: (' ' :: (encodeJsonString "computed_at_utc" ++ (':' :: (' ' :: (encodeJsonString r.computed_at_utc ++ (',' :: (' ' :: (encodeJsonString "notes" ++ (':' :: (' ' :: (encodeJsonString r.notes ++ ('\x7d' :: rest)))))))))))))))))
      = parseGo (f + 3) (.members [("schema", Json.str r.schema), ("filename", Json.str r.filename), ("size_bytes", Json.num (Int.ofNat r.size_bytes)), ("sha256", Json.str r.sha256), ("sha512", Json.str r.sha512)]) (encodeJsonString "computed_at_utc" ++ (':' :: (' ' :: (encodeJsonString r.computed_at_utc ++ (',' :: (' ' :: (encodeJsonString "notes" ++ (':' :: (' ' :: (encodeJsonString r.notes ++ ('\x7d' :: rest))))))))))) := by
    rw [show (encodeJsonString "sha512" ++ (':' :: (' ' :: (encodeJsonString r.sha512 ++ (',' :: (' ' :: (encodeJsonString "computed_at_utc" ++ (':' :: (' ' :: (encodeJsonString r.computed_at_utc ++ (',' :: (' ' :: (encodeJsonString "notes" ++ (':' :: (' ' :: (encodeJsonString r.notes ++ ('\x7d' :: rest)))))))))))))))))
        = (encodeJsonString "sha512" ++ (':' :: (' ' :: (encodeJsonString r.sha512)))) ++ (',' :: (' ' :: (encodeJsonString "computed_at_utc" ++ (':' :: (' ' :: (encodeJsonString r.computed_at_utc ++ (',' :: (' ' :: (encodeJsonString "notes" ++ (':' :: (' ' :: (encodeJsonString r.notes ++ ('\x7d' :: rest))))))))))))) from by
      simp [List.append_assoc]]
    exact parseGo_member_cont (f + 2) [("schema", Json.str r.schema), ("filename", Json.str r.filename), ("size_bytes", Json.num (Int.ofNat r.size_bytes)), ("sha256", Json.str r.sha256)] "sha512" (Json.str r.sha512) (encodeJsonString r.sha512) (encodeJsonString "computed_at_utc" ++ (':' :: (' ' :: (encodeJsonString r.computed_at_utc ++ (',' :: (' ' :: (encodeJsonString "notes" ++ (':' :: (' ' :: (encodeJsonString r.notes ++ ('\x7d' :: rest)))))))))))
      (parseGo_value_str _ _ _) (skipJsonWs_encStr _ _) (skipJsonWs_encStr _ _)
  have h6 : parseGo (f + 3) (.members [("schema", Json.str r.schema), ("filename", Json.str r.filename), ("size_bytes", Json.num (Int.ofNat r.size_bytes)), ("sha256", Json.str r.sha256), ("sha512", Json.str r.sha512)]) (encodeJsonString "computed_at_utc" ++ (':' :: (' ' :: (encodeJsonString r.computed_at_utc ++ (',' :: (' ' :: (encodeJsonString "notes" ++ (':' :: (' ' :: (encodeJsonString r.notes ++ ('\x7d' :: rest)))))))))))
      = parseGo (f + 2) (.members [("schema", Json.str r.schema), ("filename", Json.str r.filename), ("size_bytes", Json.num (Int.ofNat r.size_bytes)), ("sha256", Json.str r.sha256), ("sha512", Json.str r.sha512), ("computed_at_utc", Json.str r.computed_at_utc)]) (encodeJsonString "notes" ++ (':' :: (' ' :: (encodeJsonString r.notes ++ ('\x7d' :: rest))))) := by
    rw [show (encodeJsonString "computed_at_utc" ++ (':' :: (' ' :: (encodeJsonString r.computed_at_utc ++ (',' :: (' ' :: (encodeJsonString "notes" ++ (':' :: (' ' :: (encodeJsonString r.notes ++ ('\x7d' :: rest)))))))))))
        = (encodeJsonString "computed_at_utc" ++ (':' :: (' ' :: (encodeJsonString r.computed_at_utc)))) ++ (',' :: (' ' :: (encodeJsonString "notes" ++ (':' :: (' ' :: (encodeJsonString r.notes ++ ('\x7d' :: rest))))))) from by
      simp [List.append_assoc]]
    exact parseGo_member_cont (f + 1) [("schema", Json.str r.schema), ("filename", Json.str r.filename), ("size_bytes", Json.num (Int.ofNat r.size_bytes)), ("sha256", Json.str r.sha256), ("sha512", Json.str r.sha512)] "computed_at_utc" (Json.str r.computed_at_utc) (encodeJsonString r.computed_at_utc) (encodeJsonString "notes" ++ (':' :: (' ' :: (encodeJsonString r.notes ++ ('\x7d' :: rest)))))
      (parseGo_value_str _ _ _) (skipJsonWs_encStr _ _) (skipJsonWs_encStr _ _)
  have h7 : parseGo (f + 2) (.members [("schema", Json.str r.schema), ("filename", Json.str r.filename), ("size_bytes", Json.num (Int.ofNat r.size_bytes)), ("sha256", Json.str r.sha256), ("sha512", Json.str r.sha512), ("computed_at_utc", Json.str r.computed_at_utc)]) (encodeJsonString "notes" ++ (':' :: (' ' :: (encodeJsonString r.notes ++ ('\x7d' :: rest)))))
      = some (Json.obj (buildDict [("schema", Json.str r.schema), ("filename", Json.str r.filename), ("size_bytes", Json.num (Int.ofNat r.size_bytes)), ("sha256", Json.str r.sha256), ("sha512", Json.str r.sha512), ("computed_at_utc", Json.str r.computed_at_utc), ("notes", Json.str r.notes)]), rest) := by
    rw [show (encodeJsonString "notes" ++ (':' :: (' ' :: (encodeJsonString r.notes ++ ('\x7d' :: rest)))))
        = (encodeJsonString "notes" ++ (':' :: (' ' :: (encodeJsonString r.notes)))) ++ ('\x7d' :: rest) from by
      simp [List.append_assoc]]
    exact parseGo_member_last f [("schema", Json.str r.schema), ("filename", Json.str r.filename), ("size_bytes", Json.num (Int.ofNat r.size_bytes)), ("sha256", Json.str r.sha256), ("sha512", Json.str r.sha512), ("computed_at_utc", Json.str r.computed_at_utc)] "notes" (Json.str r.notes) (encodeJsonString r.notes) rest
      (parseGo_value_str _ _ _) (skipJsonWs_encStr _ _)
  rw [h0, h1, h2, h3, h4, h5, h6, h7]
  rfl

theorem dumpsRecord_length (r : EvidenceRecord) : 8 ≤ (dumpsRecord r).length := by
  have h8 : (encodeJsonString "schema").length = 8 := rfl
  simp only [dumpsRecord, List.length_append, List.length_cons, List.length_nil, h8]
  omega

theorem json_loads_dumpsRecord (r : EvidenceRecord) :
    json_loads (dumpsRecord r) = some (recordToJson r) := by
  have hlen := dumpsRecord_length r
  have hws : skipJsonWs (dumpsRecord r) = dumpsRecord r := by
    rw [show dumpsRecord r = '\x7b' :: (encodeJsonString "schema" ++ (':' :: (' ' :: (encodeJsonString r.schema ++ (',' :: (' ' :: (encodeJsonString "filename" ++ (':' :: (' ' :: (encodeJsonString r.filename ++ (',' :: (' ' :: (encodeJsonString "size_bytes" ++ (':' :: (' ' :: (natToDec r.size_bytes ++ (',' :: (' ' :: (encodeJsonString "sha256" ++ (':' :: (' ' :: (encodeJsonString r.sha256 ++ (',' :: (' ' :: (encodeJsonString "sha512" ++ (':' :: (' ' :: (encodeJsonString r.sha512 ++ (',' :: (' ' :: (encodeJsonString "computed_at_utc" ++ (':' :: (' ' :: (encodeJsonString r.computed_at_utc ++ (',' :: (' ' :: (encodeJsonString "notes" ++ (':' :: (' ' :: (encodeJsonString r.notes ++ ['\x7d'])))))))))))))))))))))))))))))))))))))))) from by
      simp [dumpsRecord, List.append_assoc]]
    exact skipJsonWs_cons_of (by decide) _
  have hp := parseGo_dumpsRecord ((dumpsRecord r).length - 8) r []
  rw [List.append_nil] at hp
  simp only [json_loads, hws]
  rw [show (dumpsRecord r).length + 1 = ((dumpsRecord r).length - 8) + 9 from by omega, hp]
  rfl

/-- Line-break test in arithmetic form. -/
theorem isPyLineBreak_eq_false {c : Char}
    (h : c.toNat ≠ 10 ∧ c.toNat ≠ 13 ∧ c.toNat ≠ 11 ∧ c.toNat ≠ 12 ∧ c.toNat ≠ 28 ∧
      c.toNat ≠ 29 ∧ c.toNat ≠ 30 ∧ c.toNat ≠ 133 ∧ c.toNat ≠ 8232 ∧ c.toNat ≠ 8233) :
    isPyLineBreak c = false := by
  simp only [isPyLineBreak, Bool.or_eq_false_iff, decide_eq_false_iff_not]
  tauto

/-- Output characters of the escaper are never line breaks, provided the
input character is none of the three unescaped break characters. -/
theorem escapeJsonChar_no_break {c : Char} (h133 : c.toNat ≠ 133)
    (h2028 : c.toNat ≠ 8232) (h2029 : c.toNat ≠ 8233) :
    ∀ d ∈ escapeJsonChar c, isPyLineBreak d = false := by
  intro d hd
  unfold escapeJsonChar at hd
  split_ifs at hd with e1 e2 e3 e4 e5 e6 e7 e8
  · simp only [List.mem_cons, List.not_mem_nil, or_false] at hd
    rcases hd with h | h
    · subst h; decide
    · subst h; decide
  · simp only [List.mem_cons, List.not_mem_nil, or_false] at hd
    rcases hd with h | h
    · subst h; decide
    · subst h; decide
  · simp only [List.mem_cons, List.not_mem_nil, or_false] at hd
    rcases hd with h | h
    · subst h; decide
    · subst h; decide
  · simp only [List.mem_cons, List.not_mem_nil, or_false] at hd
    rcases hd with h | h
    · subst h; decide
    · subst h; decide
  · simp only [List.mem_cons, List.not_mem_nil, or_false] at hd
    rcases hd with h | h
    · subst h; decide
    · subst h; decide
  · simp only [List.mem_cons, List.not_mem_nil, or_false] at hd
    rcases hd with h | h
    · subst h; decide
    · subst h; decide
  · simp only [List.mem_cons, List.not_mem_nil, or_false] at hd
    rcases hd with h | h
    · subst h; decide
    · subst h; decide
  · simp only [List.mem_cons, List.not_mem_nil, or_false] at hd
    have hx : ∀ k, k < 16 → isPyLineBreak (hexDigitStd k) = false := by
      intro k hk
      unfold hexDigitStd
      split_ifs with hv
      · have ht : (Char.ofNat (48 + k)).toNat = 48 + k := charToNat_ofNat (Or.inl (by omega))
        exact isPyLineBreak_eq_false (by omega)
      · have ht : (Char.ofNat (87 + k)).toNat = 87 + k := charToNat_ofNat (Or.inl (by omega))
        exact isPyLineBreak_eq_false (by omega)
    rcases hd with h | h | h | h | h | h
    · subst h; decide
    · subst h; decide
    · subst h; decide
    · subst h; decide
    · subst h; exact hx _ (by omega)
    · subst h; exact hx _ (by omega)
  · simp only [List.mem_cons, List.not_mem_nil, or_false] at hd
    subst hd
    exact isPyLineBreak_eq_false (by omega)

/-- A rendered string contains no line-break character when the source string
avoids the three unescaped ones. -/
theorem encodeJsonString_no_break {s : String} (h : lbSafe s) :
    ∀ d ∈ encodeJsonString s, isPyLineBreak d = false := by
  intro d hd
  simp only [encodeJsonString, List.mem_append, List.mem_cons, List.mem_flatten,
    List.mem_map, List.not_mem_nil, or_false] at hd
  rcases hd with (h1 | ⟨l, ⟨c, hc, hl⟩, hdl⟩) | h2
  · subst h1; decide
  · subst hl
    obtain ⟨a1, a2, a3⟩ := h c hc
    exact escapeJsonChar_no_break a1 a2 a3 d hdl
  · subst h2; decide

/-- The decimal rendering contains no line-break character. -/
theorem natToDec_no_break (n : Nat) : ∀ d ∈ natToDec n, isPyLineBreak d = false := by
  intro d hd
  unfold natToDec at hd
  split_ifs at hd with h0
  · simp only [List.mem_cons, List.not_mem_nil, or_false] at hd
    subst hd; decide
  · rw [natToDecGo_eq_map] at hd
    simp only [List.mem_map] at hd
    obtain ⟨k, hk, hdk⟩ := hd
    have hk10 : k < 10 := decDigits_lt10 _ _ _ hk
    subst hdk
    have ht : (Char.ofNat (48 + k)).toNat = 48 + k := charToNat_ofNat (Or.inl (by omega))
    exact isPyLineBreak_eq_false (by omega)

/-- Strings of lowercase hexadecimal digits avoid the three unescaped
line-break characters. -/
theorem lbSafe_of_lower_hex {s : String}
    (h : ∀ c ∈ s.data, isLowerHexDigit c = true) : lbSafe s := by
  intro c hc
  have hh := h c hc
  simp only [isLowerHexDigit, Bool.or_eq_true, Bool.and_eq_true, charLe_iff,
    decide_eq_true_eq] at hh
  have h0 : ('0').toNat = 48 := rfl
  have h9 : ('9').toNat = 57 := rfl
  have ha : ('a').toNat = 97 := rfl
  have hf : ('f').toNat = 102 := rfl
  omega

/-- A serialised record line contains no line-break character when the
record's string fields avoid the three unescaped ones. -/
theorem dumpsRecord_no_break {r : EvidenceRecord} (h : recordLBSafe r) :
    ∀ d ∈ dumpsRecord r, isPyLineBreak d = false := by
  obtain ⟨hs, hf, h256, h512, hc, hn⟩ := h
  simp only [dumpsRecord, List.forall_mem_append]
  repeat' apply And.intro
  all_goals
    first
    | decide
    | exact encodeJsonString_no_break hs
    | exact encodeJsonString_no_break hf
    | exact natToDec_no_break _
    | exact encodeJsonString_no_break h256
    | exact encodeJsonString_no_break h512
    | exact encodeJsonString_no_break hc
    | exact encodeJsonString_no_break hn

/-- The splitter carries a non-break character into the current line. -/
theorem pySplitlinesGo_cons_nb {c : Char} (h : isPyLineBreak c = false)
    (tl acc : List Char) : pySplitlinesGo (c :: tl) acc = pySplitlinesGo tl (c :: acc) := by
  rw [pySplitlinesGo.eq_def]
  split
  · rename_i heq
    cases heq
  · rename_i heq
    have hc : c = '\r' := (List.cons.injEq _ _ _ _).mp heq |>.1
    subst hc
    cases h
  · rename_i c2 rest2 heq
    obtain ⟨hc, ht⟩ := (List.cons.injEq _ _ _ _).mp heq
    subst hc
    subst ht
    rw [if_neg (by rw [h]; exact Bool.false_ne_true)]

/-- The splitter cuts exactly at the newline terminating a break-free line. -/
theorem pySplitlinesGo_chunk (line : PyStr) (h : ∀ c ∈ line, isPyLineBreak c = false)
    (rest : List Char) (acc : List Char) :
    pySplitlinesGo (line ++ '\n' :: rest) acc
      = (acc.reverse ++ line) :: pySplitlinesGo rest [] := by
  induction line generalizing acc with
  | nil =>
    rw [List.nil_append, show pySplitlinesGo ('\n' :: rest) acc
      = acc.reverse :: pySplitlinesGo rest [] from rfl, List.append_nil]
  | cons c cs ih =>
    rw [List.cons_append, pySplitlinesGo_cons_nb (h c (List.mem_cons_self c cs)) _ _,
      ih (fun d hd => h d (List.mem_cons_of_mem c hd))]
    simp [List.append_assoc]

/-- Serialising a ledger of break-safe records yields exactly one line per
record, in order. -/
theorem pySplitlines_jsonl (entries : List EvidenceRecord)
    (h : ∀ r ∈ entries, recordLBSafe r) :
    pySplitlines (ledger_to_jsonl entries) = entries.map dumpsRecord := by
  induction entries with
  | nil => rfl
  | cons r rs ih =>
    have hshape : ledger_to_jsonl (r :: rs) = dumpsRecord r ++ '\n' :: ledger_to_jsonl rs := by
      simp [ledger_to_jsonl, List.append_assoc]
    rw [pySplitlines, hshape,
      pySplitlinesGo_chunk (dumpsRecord r) (dumpsRecord_no_break (h r (List.mem_cons_self r rs))) _ _]
    rw [List.reverse_nil, List.nil_append, List.map_cons]
    exact congrArg _ (ih (fun x hx => h x (List.mem_cons_of_mem r hx)))

/-- Stripping does nothing to a list with non-space first and last
characters. -/
theorem pyStrip_eq_self {a b : Char} (mid : PyStr)
    (ha : pyIsSpace a = false) (hb : pyIsSpace b = false) :
    pyStrip (a :: (mid ++ [b])) = a :: (mid ++ [b]) := by
  have h1 : (a :: (mid ++ [b])).dropWhile pyIsSpace = a :: (mid ++ [b]) := by
    rw [List.dropWhile_cons, if_neg (by rw [ha]; exact Bool.false_ne_true)]
  have hrev : (a :: (mid ++ [b])).reverse = b :: (mid.reverse ++ [a]) := by
    simp [List.reverse_cons, List.reverse_append]
  have h2 : (a :: (mid ++ [b])).reverse.dropWhile pyIsSpace
      = (a :: (mid ++ [b])).reverse := by
    rw [hrev, List.dropWhile_cons, if_neg (by rw [hb]; exact Bool.false_ne_true), ← hrev]
  rw [pyStrip, h1, h2, List.reverse_reverse]

/-- Stripping does nothing to a serialised record line. -/
theorem pyStrip_dumpsRecord (r : EvidenceRecord) :
    pyStrip (dumpsRecord r) = dumpsRecord r := by
  rw [show dumpsRecord r = '\x7b' :: ((encodeJsonString "schema" ++ (':' :: (' ' :: (encodeJsonString r.schema ++ (',' :: (' ' :: (encodeJsonString "filename" ++ (':' :: (' ' :: (encodeJsonString r.filename ++ (',' :: (' ' :: (encodeJsonString "size_bytes" ++ (':' :: (' ' :: (natToDec r.size_bytes ++ (',' :: (' ' :: (encodeJsonString "sha256" ++ (':' :: (' ' :: (encodeJsonString r.sha256 ++ (',' :: (' ' :: (encodeJsonString "sha512" ++ (':' :: (' ' :: (encodeJsonString r.sha512 ++ (',' :: (' ' :: (encodeJsonString "computed_at_utc" ++ (':' :: (' ' :: (encodeJsonString r.computed_at_utc ++ (',' :: (' ' :: (encodeJsonString "notes" ++ (':' :: (' ' :: encodeJsonString r.notes))))))))))))))))))))))))))))))))))))))) ++ ['\x7d']) from by
    simp [dumpsRecord, List.append_assoc]]
  exact pyStrip_eq_self _ (by decide) (by decide)

/-- `json.loads` recovers every record of a serialised ledger. -/
theorem filterMap_loads_records (entries : List EvidenceRecord) :
    (entries.map dumpsRecord).filterMap json_loads = entries.map recordToJson := by
  induction entries with
  | nil => rfl
  | cons r rs ih =>
    simp only [List.map_cons, List.filterMap_cons, json_loads_dumpsRecord, ih]

/-- Full round trip: serialising a ledger of break-safe records and parsing
the bytes back yields exactly the records' dictionaries, in order. -/
theorem parse_jsonl_roundtrip (entries : List EvidenceRecord)
    (h : ∀ r ∈ entries, recordLBSafe r) :
    parse_jsonl (pyStrToUtf8 (ledger_to_jsonl entries)) = entries.map recordToJson := by
  simp only [parse_jsonl]
  rw [pyDecode_pyStrToUtf8, pySplitlines_jsonl entries h, parse_jsonl_go, List.nil_append]
  have hmap : ∀ l : List EvidenceRecord, (l.map dumpsRecord).map pyStrip = l.map dumpsRecord := by
    intro l
    induction l with
    | nil => rfl
    | cons r rs ih => simp only [List.map_cons, ih, pyStrip_dumpsRecord]
  rw [hmap]
  have hfil : (entries.map dumpsRecord).filter (fun l => !l.isEmpty)
      = entries.map dumpsRecord := by
    apply List.filter_eq_self.mpr
    intro l hl
    simp only [List.mem_map] at hl
    obtain ⟨r, _, rfl⟩ := hl
    have h8 := dumpsRecord_length r
    cases hdr : dumpsRecord r with
    | nil => rw [hdr] at h8; simp at h8
    | cons x xs => rfl
  rw [hfil, filterMap_loads_records]

/-- C3 (corrected): serialising one built evidence record and deserialising
the result yields exactly one element with the record's fields, whenever the
caller-supplied text fields avoid the three characters that `json.dumps`
leaves unescaped but `str.splitlines` treats as line breaks. -/
theorem serialize_roundtrip_record (b : List Nat) (fn nt now : String)
    (hfn : lbSafe fn) (hnt : lbSafe nt) (hnow : lbSafe now) :
    parse_jsonl (pyStrToUtf8 (ledger_to_jsonl [build_evidence_package b fn nt now]))
      = [recordToJson (build_evidence_package b fn nt now)] := by
  have hschema : lbSafe (build_evidence_package b fn nt now).schema := by
    show lbSafe "edu.unie.ud1.evidence.v1"
    decide
  have hr : recordLBSafe (build_evidence_package b fn nt now) :=
    ⟨hschema, hfn,
     lbSafe_of_lower_hex (fun c hc => bytesToHex_chars _ c (by simpa [sha256_hex] using hc)),
     lbSafe_of_lower_hex (fun c hc => bytesToHex_chars _ c (by simpa [sha512_hex] using hc)),
     hnow, hnt⟩
  rw [parse_jsonl_roundtrip [build_evidence_package b fn nt now]
    (fun r hr2 => by simp only [List.mem_singleton] at hr2; rw [hr2]; exact hr)]
  rfl

theorem serialize_roundtrip_record_witness :
    lbSafe "f" ∧ lbSafe "n" ∧ lbSafe "t" ∧
    parse_jsonl (pyStrToUtf8 (ledger_to_jsonl [build_evidence_package [] "f" "n" "t"]))
      = [recordToJson (build_evidence_package [] "f" "n" "t")] :=
  ⟨by decide, by decide, by decide,
   serialize_roundtrip_record [] "f" "n" "t" (by decide) (by decide) (by decide)⟩

/-- C4 (corrected): on ledgers of break-safe records, serialisation yields
one line per record in order, each line terminated by a newline,
deserialisation preserves the order, and every character from U+0080 up is
emitted verbatim. -/
theorem serialize_line_per_record (entries : List EvidenceRecord)
    (h : ∀ r ∈ entries, recordLBSafe r) :
    (pySplitlines (ledger_to_jsonl entries)).length = entries.length ∧
    pySplitlines (ledger_to_jsonl entries) = entries.map dumpsRecord ∧
    parse_jsonl (pyStrToUtf8 (ledger_to_jsonl entries)) = entries.map recordToJson ∧
    (∀ c : Char, 128 ≤ c.toNat → escapeJsonChar c = [c]) := by
  refine ⟨?_, pySplitlines_jsonl entries h, parse_jsonl_roundtrip entries h, ?_⟩
  · rw [pySplitlines_jsonl entries h, List.length_map]
  · intro c hc
    have h34 : ('"').toNat = 34 := rfl
    have h92 : ('\\').toNat = 92 := rfl
    have h10 : ('\n').toNat = 10 := rfl
    have h13 : ('\r').toNat = 13 := rfl
    have h9 : ('\t').toNat = 9 := rfl
    unfold escapeJsonChar
    rw [if_neg (show ¬ (c = '"') from charNe_of_toNat_ne (by omega)),
      if_neg (show ¬ (c = '\\') from charNe_of_toNat_ne (by omega)),
      if_neg (show ¬ (c = '\n') from charNe_of_toNat_ne (by omega)),
      if_neg (show ¬ (c = '\r') from charNe_of_toNat_ne (by omega)),
      if_neg (show ¬ (c = '\t') from charNe_of_toNat_ne (by omega)),
      if_neg (show ¬ (c.toNat = 8) from by omega),
      if_neg (show ¬ (c.toNat = 12) from by omega),
      if_neg (show ¬ (c.toNat < 32) from by omega)]

theorem serialize_line_per_record_witness :
    (∀ r ∈ [EvidenceRecord.mk "s" "f" 0 "h" "h" "t" "n"], recordLBSafe r) ∧
    ((pySplitlines (ledger_to_jsonl [EvidenceRecord.mk "s" "f" 0 "h" "h" "t" "n"])).length
        = 1 ∧
      pySplitlines (ledger_to_jsonl [EvidenceRecord.mk "s" "f" 0 "h" "h" "t" "n"])
        = [EvidenceRecord.mk "s" "f" 0 "h" "h" "t" "n"].map dumpsRecord ∧
      parse_jsonl (pyStrToUtf8 (ledger_to_jsonl [EvidenceRecord.mk "s" "f" 0 "h" "h" "t" "n"]))
        = [EvidenceRecord.mk "s" "f" 0 "h" "h" "t" "n"].map recordToJson ∧
      (∀ c : Char, 128 ≤ c.toNat → escapeJsonChar c = [c])) :=
  ⟨by decide, serialize_line_per_record [EvidenceRecord.mk "s" "f" 0 "h" "h" "t" "n"] (by decide)⟩

/-- C4 counterexample: a record whose filename contains U+2028 serialises to
text that splits into two lines, not one. -/
theorem serialize_line_per_record_cex :
    (pySplitlines (ledger_to_jsonl
        [EvidenceRecord.mk "s" (String.mk [Char.ofNat 8232]) 0 "h" "h" "t" "n"])).length = 2 ∧
    (2 : Nat) ≠ 1 :=
  ⟨by decide, by decide⟩

set_option maxHeartbeats 1600000 in
/-- C3 counterexample: a built record whose notes contain U+2028 round-trips
to the empty sequence, not to a one-element sequence with equal fields. -/
theorem serialize_roundtrip_record_cex :
    parse_jsonl (pyStrToUtf8 (ledger_to_jsonl
        [build_evidence_package [] "f" (String.mk [Char.ofNat 8232]) "t"])) = [] ∧
    ([] : List Json)
      ≠ [recordToJson (build_evidence_package [] "f" (String.mk [Char.ofNat 8232]) "t")] :=
  ⟨rfl, by simp⟩
